import Mathlib

/-!
Verification of the arb-scanner backend (Polymarket/Kalshi arbitrage
scanner) against its natural-language specification.

The Python services under `backend/app/services` are shallowly embedded
here as executable Lean definitions:

* `calculator.py`      — exact rational arithmetic (`ℚ`) stands in for
  Python floats; Python `round(x, 4)` is embedded as exact
  round-half-to-even on rationals (`pyRound4`).
* `sports_matcher.py`  — Python strings are embedded as `List Char`
  (ASCII); the two anchored regexes are embedded as equivalent
  hand-written matchers on character lists (the equivalence argument is
  recorded at each definition).
* `matcher.py`         — the pass-2 confirmation loop; the external LLM
  call is a parameter (`GroqReply` oracle), the md5 cache key is
  modelled by the pre-hash string it digests (md5 is injective for the
  purposes of the cache-membership logic).
* `embeddings.py`      — the SQL eligibility filters; the numpy cosine
  similarity over stored float vectors is a rational-valued parameter.
* `poller.py`          — the diff-cleanup step as a pure function on a
  relational-state record.
* `ws_manager.py`      — the streaming price-update callback as a pure
  state transformer; the monotonic clock is an explicit `ℚ` argument.

Definitions are transliterated from the Python source; claim theorems
follow at the end of the file.
-/

set_option maxHeartbeats 1000000

/-- Str is the embedding of Python strings: a list of (ASCII) characters. -/
abbrev Str := List Char

/-- ASCII lowercase of one character (Python str.lower restricted to ASCII). -/
def asciiLowerChar (c : Char) : Char :=
  if 65 ≤ c.toNat ∧ c.toNat ≤ 90 then Char.ofNat (c.toNat + 32) else c

/-- ASCII uppercase of one character (Python str.upper restricted to ASCII). -/
def asciiUpperChar (c : Char) : Char :=
  if 97 ≤ c.toNat ∧ c.toNat ≤ 122 then Char.ofNat (c.toNat - 32) else c

/-- Python str.lower over the whole string (ASCII fragment). -/
def lowerStr (s : Str) : Str := s.map asciiLowerChar

/-- Python str.upper over the whole string (ASCII fragment). -/
def upperStr (s : Str) : Str := s.map asciiUpperChar

/-- Python str.isspace-style whitespace test for str.strip. -/
def isSpaceC (c : Char) : Bool :=
  c == ' ' || c == '\t' || c == '\n' || c == '\x0d' || c == '\x0c' || c == '\x0b'

/-- Python str.strip: remove leading and trailing whitespace. -/
def stripStr (s : Str) : Str :=
  ((s.dropWhile isSpaceC).reverse.dropWhile isSpaceC).reverse

/-- Decimal digit test, the regex class \d (ASCII fragment). -/
def isDigitC (c : Char) : Bool := 48 ≤ c.toNat ∧ c.toNat ≤ 57

/-- Regex class [a-z0-9], as applied to already-lowercased text. -/
def isLowerAlnumC (c : Char) : Bool :=
  (97 ≤ c.toNat ∧ c.toNat ≤ 122) || isDigitC c

/-- Regex class [A-Z], as applied to already-uppercased text. -/
def isUpperAlphaC (c : Char) : Bool := 65 ≤ c.toNat ∧ c.toNat ≤ 90

/-- Numeric value of a decimal digit character. -/
def digitVal (c : Char) : ℕ := c.toNat - 48

/-- The decimal digit character for n (n ≥ 9 clamps to 9; callers pass n < 10). -/
def digitChar10 (n : ℕ) : Char :=
  match n with
  | 0 => '0' | 1 => '1' | 2 => '2' | 3 => '3' | 4 => '4'
  | 5 => '5' | 6 => '6' | 7 => '7' | 8 => '8' | _ => '9'

/-- Value of a digit string read in base 10 (int() on an all-digit string). -/
def natOfDigits (s : Str) : ℕ := s.foldl (fun acc c => acc * 10 + digitVal c) 0

/-- Split a character list at every occurrence of sep (Python str.split(sep)). -/
def splitOnC (sep : Char) : Str → List Str
  | [] => [[]]
  | c :: rest =>
    match splitOnC sep rest with
    | [] => if c == sep then [[], []] else [[c]]
    | h :: t => if c == sep then [] :: h :: t else (c :: h) :: t

/-- Split at the first occurrence of sep only (Python str.split(sep, 1)),
returning (before, after). Callers guarantee sep occurs. -/
def splitFirstC (sep : Char) (s : Str) : Str × Str :=
  (s.takeWhile (fun c => ¬ (c == sep)), (s.dropWhile (fun c => ¬ (c == sep))).drop 1)

/-- Split at the last occurrence of sep only (Python str.rsplit(sep, 1)),
returning (before, after). Callers guarantee sep occurs. -/
def rsplitOnceC (sep : Char) (s : Str) : Str × Str :=
  (((s.reverse.dropWhile (fun c => ¬ (c == sep))).drop 1).reverse,
   (s.reverse.takeWhile (fun c => ¬ (c == sep))).reverse)

/-- Number of occurrences of a character (Python str.count). -/
def countC (sep : Char) (s : Str) : ℕ := (s.filter (fun c => c == sep)).length

/-- Lexicographic less-or-equal on strings by code point (Python str <=),
used by sorted() on a two-element list. -/
def lexLe : Str → Str → Bool
  | [], _ => true
  | _ :: _, [] => false
  | a :: s, b :: t => if a == b then lexLe s t else a.toNat < b.toNat

-- ---------------------------------------------------------------------------
-- calculator.py
-- ---------------------------------------------------------------------------

/-- Python round-half-to-even of a rational to an integer (round(x)). -/
def pyRoundHalfEven (x : ℚ) : ℤ :=
  if x - ⌊x⌋ < 1/2 then ⌊x⌋
  else if 1/2 < x - ⌊x⌋ then ⌊x⌋ + 1
  else if 2 ∣ ⌊x⌋ then ⌊x⌋ else ⌊x⌋ + 1

/-- Python round(x, 4): round half to even at the fourth decimal place.
Models float rounding by exact rational rounding. -/
def pyRound4 (x : ℚ) : ℚ := (pyRoundHalfEven (x * 10000) : ℚ) / 10000

/-- kalshi_fee: 0.07 * price * (1 - price), capped at $0.02. -/
def kalshi_fee (price : ℚ) : ℚ := min ((7:ℚ)/100 * price * (1 - price)) ((2:ℚ)/100)

/-- polymarket_fee: zero for most markets. -/
def polymarket_fee (_price : ℚ) : ℚ := 0

/-- Direction string constant buy_kalshi_sell_poly. -/
def buyKalshiSellPoly : Str :=
  ['b', 'u', 'y', '_', 'k', 'a', 'l', 's', 'h', 'i', '_', 's', 'e', 'l', 'l', '_', 'p', 'o', 'l', 'y']

/-- Direction string constant buy_poly_sell_kalshi. -/
def buyPolySellKalshi : Str :=
  ['b', 'u', 'y', '_', 'p', 'o', 'l', 'y', '_', 's', 'e', 'l', 'l', '_', 'k', 'a', 'l', 's', 'h', 'i']

/-- Result dictionary of calculate_spread. -/
structure SpreadOut where
  raw_spread : ℚ
  fee_adjusted_spread : ℚ
  polymarket_fee_out : ℚ
  kalshi_fee_out : ℚ
  direction : Str
  profitable : Bool
deriving Repr, DecidableEq

/-- calculate_spread: fee-adjusted spread checking both directions.
The branch condition poly_yes >= kalshi_yes selects the direction; in both
branches the profit equals the raw spread minus both fees. -/
def calculate_spread (poly_yes kalshi_yes : ℚ) : SpreadOut :=
  let raw_spread := |poly_yes - kalshi_yes|
  let k_fee := kalshi_fee kalshi_yes
  let p_fee := polymarket_fee poly_yes
  let dir_profit : Str × ℚ :=
    if kalshi_yes ≤ poly_yes then
      (buyKalshiSellPoly, poly_yes - kalshi_yes - k_fee - p_fee)
    else
      (buyPolySellKalshi, kalshi_yes - poly_yes - p_fee - k_fee)
  let fee_adjusted := max 0 dir_profit.2
  { raw_spread := pyRound4 raw_spread
    fee_adjusted_spread := pyRound4 fee_adjusted
    polymarket_fee_out := pyRound4 p_fee
    kalshi_fee_out := pyRound4 k_fee
    direction := dir_profit.1
    profitable := decide (0 < fee_adjusted) }

-- ---------------------------------------------------------------------------
-- Calendar dates (embedding of datetime.date / datetime.datetime validation,
-- date.isoformat, date.fromisoformat, and ± timedelta(days=1))
-- ---------------------------------------------------------------------------

/-- Gregorian leap-year test (Python calendar rule). -/
def isLeapYear (y : ℕ) : Bool := (y % 4 == 0 && y % 100 != 0) || y % 400 == 0

/-- Days in a month of the proleptic Gregorian calendar. -/
def daysInMonth (y m : ℕ) : ℕ :=
  if m = 2 then (if isLeapYear y then 29 else 28)
  else if m = 4 ∨ m = 6 ∨ m = 9 ∨ m = 11 then 30
  else 31

/-- Calendar date record (Python datetime.date). -/
structure CalDate where
  year : ℕ
  month : ℕ
  day : ℕ
deriving Repr, DecidableEq

/-- Validity predicate of datetime.date(year, month, day) for years up to 9999
(Python MAXYEAR); construction raises ValueError outside these bounds. -/
def ValidDate (d : CalDate) : Prop :=
  1 ≤ d.year ∧ d.year ≤ 9999 ∧ 1 ≤ d.month ∧ d.month ≤ 12 ∧
    1 ≤ d.day ∧ d.day ≤ daysInMonth d.year d.month

instance (d : CalDate) : Decidable (ValidDate d) := by
  unfold ValidDate; infer_instance

/-- Next calendar day (Python date + timedelta(days=1) for valid dates). -/
def succDate (d : CalDate) : CalDate :=
  if d.day < daysInMonth d.year d.month then ⟨d.year, d.month, d.day + 1⟩
  else if d.month < 12 then ⟨d.year, d.month + 1, 1⟩
  else ⟨d.year + 1, 1, 1⟩

/-- Previous calendar day (Python date - timedelta(days=1) for valid dates). -/
def predDate (d : CalDate) : CalDate :=
  if 1 < d.day then ⟨d.year, d.month, d.day - 1⟩
  else if 1 < d.month then ⟨d.year, d.month - 1, daysInMonth d.year (d.month - 1)⟩
  else ⟨d.year - 1, 12, 31⟩

/-- Two-digit zero-padded decimal rendering (f-string 02d, values < 100). -/
def pad2 (n : ℕ) : Str := [digitChar10 (n / 10 % 10), digitChar10 (n % 10)]

/-- Four-digit zero-padded decimal rendering (f-string 04d, values < 10000). -/
def pad4 (n : ℕ) : Str :=
  [digitChar10 (n / 1000 % 10), digitChar10 (n / 100 % 10),
   digitChar10 (n / 10 % 10), digitChar10 (n % 10)]

/-- ISO rendering of a date, YYYY-MM-DD (date.isoformat, and the f-string
formatting in parse_kalshi_event_ticker). -/
def isoFormat (d : CalDate) : Str :=
  pad4 d.year ++ '-' :: pad2 d.month ++ '-' :: pad2 d.day

/-- date.fromisoformat on the YYYY-MM-DD shape: exactly three dash-separated
all-digit groups of widths 4, 2, 2, validated as a calendar date. Every
string this embedding feeds to it has this 4-2-2 digit shape, on which the
embedding agrees with Python (which also accepts other ISO-8601 forms). -/
def fromIso (s : Str) : Option CalDate :=
  match splitOnC '-' s with
  | [a, b, c] =>
    if a.length = 4 ∧ a.all isDigitC ∧ b.length = 2 ∧ b.all isDigitC ∧
        c.length = 2 ∧ c.all isDigitC then
      let d : CalDate := ⟨natOfDigits a, natOfDigits b, natOfDigits c⟩
      if ValidDate d then some d else none
    else none
  | _ => none

-- ---------------------------------------------------------------------------
-- sports_matcher.py — league maps, aliases, parsers
-- ---------------------------------------------------------------------------

/-- POLY_LEAGUE_MAP: Polymarket slug prefix to canonical league name. -/
def polyLeagueEntries : List (Str × Str) :=
  [(['n', 'b', 'a'], ['n', 'b', 'a']),
   (['n', 'h', 'l'], ['n', 'h', 'l']),
   (['u', 'c', 'l'], ['u', 'c', 'l']),
   (['e', 'p', 'l'], ['e', 'p', 'l']),
   (['e', 's', '2'], ['l', 'a', 'l', 'i', 'g', 'a', '2']),
   (['b', 'u', 'n'], ['b', 'u', 'n', 'd', 'e', 's', 'l', 'i', 'g', 'a']),
   (['d', 'o', 't', 'a', '2'], ['d', 'o', 't', 'a', '2']),
   (['l', 'o', 'l'], ['l', 'o', 'l']),
   (['c', 's', '2'], ['c', 's', '2']),
   (['a', 't', 'p'], ['a', 't', 'p']),
   (['w', 't', 'a'], ['w', 't', 'a']),
   (['v', 'a', 'l'], ['v', 'a', 'l', 'o', 'r', 'a', 'n', 't']),
   (['n', 'c', 'a', 'a', 'm', 'b'], ['n', 'c', 'a', 'a', 'b'])]

/-- KALSHI_LEAGUE_MAP: Kalshi series prefix to canonical league name. -/
def kalshiLeagueEntries : List (Str × Str) :=
  [(['K', 'X', 'N', 'B', 'A', 'G', 'A', 'M', 'E'], ['n', 'b', 'a']),
   (['K', 'X', 'N', 'H', 'L', 'G', 'A', 'M', 'E'], ['n', 'h', 'l']),
   (['K', 'X', 'U', 'C', 'L', 'G', 'A', 'M', 'E'], ['u', 'c', 'l']),
   (['K', 'X', 'E', 'P', 'L', 'G', 'A', 'M', 'E'], ['e', 'p', 'l']),
   (['K', 'X', 'L', 'A', 'L', 'I', 'G', 'A', '2', 'G', 'A', 'M', 'E'],
    ['l', 'a', 'l', 'i', 'g', 'a', '2']),
   (['K', 'X', 'B', 'U', 'N', 'D', 'E', 'S', 'L', 'I', 'G', 'A', 'G', 'A', 'M', 'E'],
    ['b', 'u', 'n', 'd', 'e', 's', 'l', 'i', 'g', 'a']),
   (['K', 'X', 'D', 'O', 'T', 'A', '2', 'G', 'A', 'M', 'E'], ['d', 'o', 't', 'a', '2']),
   (['K', 'X', 'L', 'O', 'L', 'G', 'A', 'M', 'E'], ['l', 'o', 'l']),
   (['K', 'X', 'C', 'S', '2', 'G', 'A', 'M', 'E'], ['c', 's', '2']),
   (['K', 'X', 'A', 'T', 'P', 'G', 'A', 'M', 'E'], ['a', 't', 'p']),
   (['K', 'X', 'A', 'T', 'P', 'M', 'A', 'T', 'C', 'H'], ['a', 't', 'p']),
   (['K', 'X', 'W', 'T', 'A', 'G', 'A', 'M', 'E'], ['w', 't', 'a']),
   (['K', 'X', 'W', 'T', 'A', 'M', 'A', 'T', 'C', 'H'], ['w', 't', 'a']),
   (['K', 'X', 'V', 'A', 'L', 'O', 'R', 'A', 'N', 'T', 'G', 'A', 'M', 'E'],
    ['v', 'a', 'l', 'o', 'r', 'a', 'n', 't']),
   (['K', 'X', 'N', 'C', 'A', 'A', 'M', 'B', 'G', 'A', 'M', 'E'], ['n', 'c', 'a', 'a', 'b'])]

/-- MONTH_MAP: 3-letter month abbreviation to month number. -/
def monthEntries : List (Str × ℕ) :=
  [(['J', 'A', 'N'], 1),
   (['F', 'E', 'B'], 2),
   (['M', 'A', 'R'], 3),
   (['A', 'P', 'R'], 4),
   (['M', 'A', 'Y'], 5),
   (['J', 'U', 'N'], 6),
   (['J', 'U', 'L'], 7),
   (['A', 'U', 'G'], 8),
   (['S', 'E', 'P'], 9),
   (['O', 'C', 'T'], 10),
   (['N', 'O', 'V'], 11),
   (['D', 'E', 'C'], 12)]

/-- TEAM_ALIASES: Polymarket team code to Kalshi team code. -/
def teamAliasEntries : List (Str × Str) :=
  [(['u', 't', 'a', 'h'], ['u', 't', 'a'])]

/-- TEAM_ALIASES.get(code, code). -/
def teamAlias (code : Str) : Str := (teamAliasEntries.lookup code).getD code

/-- A sports_market_type value of moneyline. -/
def moneylineStr : Str := ['m', 'o', 'n', 'e', 'y', 'l', 'i', 'n', 'e']

/-- Market-id platform tag kalshi colon prefix. -/
def kalshiColonStr : Str := ['k', 'a', 'l', 's', 'h', 'i', ':']

/-- Reasoning-string head used by the deterministic matcher. -/
def detReasonStr : Str :=
  ['D', 'e', 't', 'e', 'r', 'm', 'i', 'n', 'i', 's', 't', 'i', 'c', ' ',
   's', 'l', 'u', 'g', ' ', 'm', 'a', 't', 'c', 'h', ':', ' ']

/-- strip_ucl_suffix: strip trailing digits only when at least 2 characters
remain after stripping. -/
def strip_ucl_suffix (code : Str) : Str :=
  let stripped := (code.reverse.dropWhile isDigitC).reverse
  if 2 ≤ stripped.length then stripped else code

/-- Matcher for the anchored prefix regex POLY_SLUG_RE over an
already-lowercased string. Since the character classes of all four groups
exclude the hyphen and group widths are bounded by the hyphen delimiters,
the regex matches exactly when the leading dash-separated fields are:
an alphanumeric league tag, two alphanumeric team codes of width 2..7,
then 4 digits, 2 digits, and a field starting with 2 digits (trailing text
after the date is allowed: the pattern is not right-anchored). The
captured date group is the 4-2-2 digit prefix of those last three fields. -/
def polySlugMatch (s : Str) : Option (Str × Str × Str × Str) :=
  match splitOnC '-' s with
  | p0 :: p1 :: p2 :: p3 :: p4 :: p5 :: _ =>
    if p0 ≠ [] ∧ p0.all isLowerAlnumC ∧
        2 ≤ p1.length ∧ p1.length ≤ 7 ∧ p1.all isLowerAlnumC ∧
        2 ≤ p2.length ∧ p2.length ≤ 7 ∧ p2.all isLowerAlnumC ∧
        p3.length = 4 ∧ p3.all isDigitC ∧
        p4.length = 2 ∧ p4.all isDigitC ∧
        2 ≤ p5.length ∧ (p5.take 2).all isDigitC then
      some (p0, p1, p2, p3 ++ '-' :: p4 ++ '-' :: p5.take 2)
    else none
  | _ => none

/-- parse_poly_slug: parse a Polymarket event slug into
(league, team1, team2, date_iso). -/
def parse_poly_slug (slug : Str) : Option (Str × Str × Str × Str) :=
  if slug = [] then none
  else
    match polySlugMatch (lowerStr (stripStr slug)) with
    | none => none
    | some (leaguePfx, rawT1, rawT2, dateStr) =>
      match polyLeagueEntries.lookup leaguePfx with
      | none => none
      | some league =>
        let team1 := strip_ucl_suffix rawT1
        let team2 := strip_ucl_suffix rawT2
        if team1 = [] ∨ team2 = [] then none
        else some (league, team1, team2, dateStr)

/-- Matcher for the fully-anchored regex KALSHI_SUFFIX_RE over an
already-uppercased string: 2 digits, 3 letters, 2 digits, an optional
4-digit time block, then 2..12 letters to the end of the string. The two
alternatives for the optional block are mutually exclusive (the character
after the day is a digit in exactly one of them), so the greedy regex and
this case split agree. Returns (year2, month3, day2, teams). -/
def kalshiSuffixMatch (u : Str) : Option (Str × Str × Str × Str) :=
  match u with
  | a :: b :: c :: d :: e :: f :: g :: rest =>
    if isDigitC a ∧ isDigitC b ∧ isUpperAlphaC c ∧ isUpperAlphaC d ∧
        isUpperAlphaC e ∧ isDigitC f ∧ isDigitC g then
      if rest.all isUpperAlphaC ∧ 2 ≤ rest.length ∧ rest.length ≤ 12 then
        some ([a, b], [c, d, e], [f, g], rest)
      else
        match rest with
        | h :: i :: j :: k :: rest2 =>
          if isDigitC h ∧ isDigitC i ∧ isDigitC j ∧ isDigitC k ∧
              rest2.all isUpperAlphaC ∧ 2 ≤ rest2.length ∧ rest2.length ≤ 12 then
            some ([a, b], [c, d, e], [f, g], rest2)
          else none
        | _ => none
    else none
  | _ => none

/-- parse_kalshi_event_ticker: parse a Kalshi event_ticker into
(league, teams_str, date_iso). The datetime(year, month, day) validation
call is embedded as the day-in-month bound (year is 2000..2099 and month
1..12 here, both inside datetime's own bounds). -/
def parse_kalshi_event_ticker (event_ticker : Str) : Option (Str × Str × Str) :=
  if event_ticker = [] ∨ ¬ '-' ∈ event_ticker then none
  else
    let parts := splitFirstC '-' event_ticker
    match kalshiLeagueEntries.lookup (upperStr parts.1) with
    | none => none
    | some league =>
      match kalshiSuffixMatch (upperStr parts.2) with
      | none => none
      | some (yearStr, monStr, dayStr, teamsStr) =>
        match monthEntries.lookup monStr with
        | none => none
        | some month =>
          let year := 2000 + natOfDigits yearStr
          let day := natOfDigits dayStr
          if 1 ≤ day ∧ day ≤ daysInMonth year month then
            some (league, lowerStr teamsStr, isoFormat ⟨year, month, day⟩)
          else none

/-- canonical_sports_key: league:sortedTeam1-sortedTeam2:date. -/
def canonical_sports_key (league team1 team2 date : Str) : Str :=
  let a := lowerStr team1
  let b := lowerStr team2
  let lo := if lexLe a b then a else b
  let hi := if lexLe a b then b else a
  league ++ ':' :: lo ++ '-' :: hi ++ ':' :: date

/-- teams_match: bidirectional prefix match between a Kalshi YES suffix and a
Polymarket team code, alias-resolved, minimum 2 characters. -/
def teams_match (suffix poly_team : Str) : Bool :=
  if suffix = [] ∨ poly_team = [] then false
  else
    let s := lowerStr suffix
    let p := teamAlias (lowerStr poly_team)
    if min s.length p.length < 2 then false
    else p.isPrefixOf s || s.isPrefixOf p

/-- Orientation verdict of check_sports_orientation. -/
inductive SportsOrient where
  | aligned
  | inverted
  | unknown
deriving Repr, DecidableEq

/-- check_sports_orientation: decide whether the Kalshi market's YES side
aligns with the Polymarket market's YES side (team1). -/
def check_sports_orientation (kalshi_market_id poly_team1 poly_team2 : Str) :
    SportsOrient :=
  if ¬ kalshiColonStr.isPrefixOf kalshi_market_id then .unknown
  else
    let full_ticker := kalshi_market_id.drop 7
    if countC '-' full_ticker < 2 then .unknown
    else
      let parts := rsplitOnceC '-' full_ticker
      if (parse_kalshi_event_ticker parts.1).isNone then .unknown
      else
        let yes_suffix := lowerStr parts.2
        if teams_match yes_suffix poly_team1 then .aligned
        else if teams_match yes_suffix poly_team2 then .inverted
        else .unknown

-- ---------------------------------------------------------------------------
-- sports_matcher.py — match_sports_deterministic
-- ---------------------------------------------------------------------------

/-- Input market rows consumed by match_sports_deterministic from the
Polymarket side (the dict/NormalizedMarket duck typing collapses to one
record; only the fields the function reads are kept). -/
structure SportsPolyIn where
  id : Str
  event_slug : Str
  sports_market_type : Str
deriving Repr, DecidableEq

/-- Input market rows consumed by match_sports_deterministic from the
Kalshi side. -/
structure SportsKalshiIn where
  id : Str
  event_ticker : Str
deriving Repr, DecidableEq

/-- Lookup key of kalshi_by_key: (league, date_str, teams_str). -/
abbrev SportsKey := Str × Str × Str

/-- Output row of match_sports_deterministic. -/
structure DetMatch where
  poly_id : Str
  kalshi_id : Str
  confidence : ℚ
  reasoning : Str
deriving Repr, DecidableEq

/-- dict.setdefault(key, []).append(v): append v to the entry for key,
creating the entry at the end if absent (insertion-ordered dict). -/
def assocAppend (acc : List (SportsKey × List Str)) (key : SportsKey) (v : Str) :
    List (SportsKey × List Str) :=
  if (acc.lookup key).isSome then
    acc.map (fun e => if e.1 = key then (e.1, e.2 ++ [v]) else e)
  else acc ++ [(key, [v])]

/-- Build kalshi_by_key: fold over the Kalshi markets, keying each parseable
event_ticker by (league, date_str, teams_str) and collecting all market ids
per game. -/
def buildKalshiByKey (kalshi_markets : List SportsKalshiIn) :
    List (SportsKey × List Str) :=
  kalshi_markets.foldl
    (fun acc m =>
      if m.event_ticker = [] then acc
      else
        match parse_kalshi_event_ticker m.event_ticker with
        | some (league, teams_str, date_str) =>
          assocAppend acc (league, date_str, teams_str) m.id
        | none => acc)
    []

/-- kalshi_by_key.get(key) followed by the truthiness test if ids:
a missing key and an empty list are both misses. -/
def lookupIds (kbk : List (SportsKey × List Str)) (key : SportsKey) :
    Option (List Str) :=
  match kbk.lookup key with
  | some ids => if ids = [] then none else some ids
  | none => none

/-- The exact-date lookup over both team orderings, then the ±1 day fallback
(delta -1 before +1, both orderings per delta); the fallback is reached only
when both exact orderings miss, and is skipped when date.fromisoformat
raises (embedded: fromIso returns none). -/
def findKalshiIds (kbk : List (SportsKey × List Str))
    (league date_str t1 t2 : Str) : Option (List Str) :=
  match lookupIds kbk (league, date_str, t1 ++ t2) with
  | some ids => some ids
  | none =>
    match lookupIds kbk (league, date_str, t2 ++ t1) with
    | some ids => some ids
    | none =>
      match fromIso date_str with
      | none => none
      | some game_date =>
        match lookupIds kbk (league, isoFormat (predDate game_date), t1 ++ t2) with
        | some ids => some ids
        | none =>
          match lookupIds kbk (league, isoFormat (predDate game_date), t2 ++ t1) with
          | some ids => some ids
          | none =>
            match lookupIds kbk (league, isoFormat (succDate game_date), t1 ++ t2) with
            | some ids => some ids
            | none =>
              lookupIds kbk (league, isoFormat (succDate game_date), t2 ++ t1)

/-- Orientation-based selection over the candidate Kalshi ids: the first
ALIGNED id wins immediately; otherwise the first UNKNOWN id is the fallback;
if every id is INVERTED the game is skipped (none). -/
def selectBestKalshi (team1 team2 : Str) :
    List Str → Option Str → Option Str
  | [], unknownCand => unknownCand
  | kid :: rest, unknownCand =>
    match check_sports_orientation kid team1 team2 with
    | .aligned => some kid
    | .unknown =>
      selectBestKalshi team1 team2 rest
        (match unknownCand with | some u => some u | none => some kid)
    | .inverted => selectBestKalshi team1 team2 rest unknownCand

/-- Body of the per-Polymarket-market loop of match_sports_deterministic:
moneyline filter, slug parse, alias resolution, key lookup with fallback,
orientation selection, and match-row construction. -/
def polyStep (kbk : List (SportsKey × List Str)) (matched : List DetMatch)
    (m : SportsPolyIn) : List DetMatch :=
  if m.sports_market_type ≠ [] ∧ m.sports_market_type ≠ moneylineStr then matched
  else
    match parse_poly_slug m.event_slug with
    | none => matched
    | some (league, team1, team2, date_str) =>
      let t1 := teamAlias (lowerStr team1)
      let t2 := teamAlias (lowerStr team2)
      match findKalshiIds kbk league date_str t1 t2 with
      | none => matched
      | some kalshi_ids =>
        match selectBestKalshi team1 team2 kalshi_ids none with
        | none => matched
        | some best_id =>
          matched ++
            [{ poly_id := m.id
               kalshi_id := best_id
               confidence := 1
               reasoning :=
                 detReasonStr ++ canonical_sports_key league team1 team2 date_str }]

/-- match_sports_deterministic: deterministic slug/ticker matching (Pass 0). -/
def match_sports_deterministic (poly_markets : List SportsPolyIn)
    (kalshi_markets : List SportsKalshiIn) : List DetMatch :=
  let kbk := buildKalshiByKey kalshi_markets
  poly_markets.foldl (polyStep kbk) []

-- ---------------------------------------------------------------------------
-- matcher.py — Pass 2 confirmation loop
-- ---------------------------------------------------------------------------

/-- Market dictionary entry as used by the Pass 2 loop (the output of
_market_to_dict restricted to the fields the loop reads). The end_date
value is modelled as an optional timestamp in seconds: _parse_date maps a
missing/None/unparseable value to None and a parseable datetime string to a
datetime, and _dates_compatible only consumes the difference of the two
timestamps, so the datetime itself is embedded by its timestamp. -/
structure MarketD where
  id : Str
  question : Str
  yes_price : ℚ
  end_date : Option ℚ
  event_slug : Str
deriving Repr, DecidableEq

/-- Candidate pair entering Pass 2. -/
structure Cand where
  poly_id : Str
  kalshi_id : Str
  confidence : ℚ
deriving Repr, DecidableEq

/-- Outcome of the external confirmation call for one candidate, the
parameter standing for _call_groq plus the JSON extraction in
_pass2_confirm: noResponse is a None return from _call_groq (service
unavailable / exhausted retries); unparseable is a text that fails both
json.loads attempts; verdict carries the parsed confirmed/inverted flags. -/
inductive GroqReply where
  | noResponse
  | unparseable
  | verdict (confirmed : Bool) (inverted : Bool)
deriving Repr, DecidableEq

/-- Confirmed-match dictionary returned by _pass2_confirm. -/
structure MatchOut where
  polymarket_id : Str
  kalshi_id : Str
  confidence : ℚ
  question : Str
  polymarket_yes : ℚ
  kalshi_yes : ℚ
deriving Repr, DecidableEq

/-- _cache_key: the md5 hex digest of poly_id|kalshi_id. The digest is
modelled by the digested string itself: the cache logic only tests set
membership of keys, and distinct id pairs give distinct pre-hash strings. -/
def cache_key (poly_id kalshi_id : Str) : Str := poly_id ++ '|' :: kalshi_id

/-- _CONFIDENCE_THRESHOLD. -/
def confidenceThreshold : ℚ := mkRat 7 10

/-- _DATE_TOLERANCE_SECONDS (3 days). -/
def dateToleranceSeconds : ℚ := 259200

/-- _MAX_CONFIRMATIONS_PER_CYCLE. -/
def maxConfirmationsPerCycle : ℕ := 200

/-- _dates_compatible: compatible when either end date is missing or the
two differ by at most the tolerance. -/
def dates_compatible (poly_end kalshi_end : Option ℚ) : Bool :=
  match poly_end, kalshi_end with
  | some p, some k => |p - k| ≤ dateToleranceSeconds
  | _, _ => true

/-- Word-character test for the regex boundary anchor after a unit word. -/
def isWordC (c : Char) : Bool :=
  isDigitC c || (65 ≤ c.toNat ∧ c.toNat ≤ 90) || (97 ≤ c.toNat ∧ c.toNat ≤ 122) || c == '_'

/-- Case-insensitive unit-word match at the head of rem for the alternation
inches|inch|in followed by a word boundary; returns the matched length. The
regex alternation tries the longest word first, exactly as here. -/
def unitWordLen (rem : Str) : Option ℕ :=
  if lowerStr (rem.take 6) = ['i', 'n', 'c', 'h', 'e', 's'] ∧ 6 ≤ rem.length ∧
      ((rem.drop 6).head?.all (fun c => ¬ isWordC c)) then some 6
  else if lowerStr (rem.take 4) = ['i', 'n', 'c', 'h'] ∧ 4 ≤ rem.length ∧
      ((rem.drop 4).head?.all (fun c => ¬ isWordC c)) then some 4
  else if lowerStr (rem.take 2) = ['i', 'n'] ∧ 2 ≤ rem.length ∧
      ((rem.drop 2).head?.all (fun c => ¬ isWordC c)) then some 2
  else none

/-- Value of an integer-digit part plus an optional fraction-digit part. -/
def decimalValue (intPart fracPart : Str) : ℚ :=
  (natOfDigits intPart : ℚ) + (natOfDigits fracPart : ℚ) / (10 ^ fracPart.length : ℕ)

/-- Optional fractional part .ddd at the head of s (at least one digit);
returns (fraction digits, rest). The regex group is greedy and there is
nothing to backtrack into: a failed fraction leaves the dot unconsumed. -/
def takeFraction (s : Str) : Str × Str :=
  match s with
  | '.' :: rest =>
    let ds := rest.takeWhile isDigitC
    if ds = [] then ([], s) else (ds, rest.drop ds.length)
  | _ => ([], s)

def length_dropWhileC_le (p : Char → Bool) (l : Str) :
    (l.dropWhile p).length ≤ l.length := by
  induction l with
  | nil => simp [List.dropWhile]
  | cons c rest ih =>
    by_cases h : p c = true
    · simp [List.dropWhile, h]; omega
    · simp [List.dropWhile, h]

def length_takeFraction_le (s : Str) : (takeFraction s).2.length ≤ s.length := by
  unfold takeFraction
  match s with
  | [] => simp
  | c :: rest =>
    by_cases hc : c = '.'
    · subst hc
      by_cases hd : rest.takeWhile isDigitC = []
      · simp [hd]
      · simp only [if_neg hd, List.length_cons, List.length_drop]
        omega
    · cases c
      simp_all

/-- Scanner for DOLLAR_RE over the text: at each dollar sign, a nonempty run
of digits/commas, an optional fraction, optional whitespace and an optional
magnitude suffix; finditer semantics (non-overlapping, resume after each
match). A comma-only amount parses to the empty string whose float() raises
and is skipped by the source; here it contributes no value but still
consumes the match. The fuel argument makes the recursion structural; every
step strictly shrinks the text, so fuel equal to the text length never runs
out (scanDollar supplies it). -/
def scanDollarF : ℕ → Str → List ℚ
  | _, [] => []
  | 0, _ => []
  | fuel + 1, c :: rest =>
    if c == '$' then
      let numPart := rest.takeWhile (fun ch => isDigitC ch || ch == ',')
      if numPart = [] then scanDollarF fuel rest
      else
        let fr := takeFraction (rest.drop numPart.length)
        let afterWs := fr.2.dropWhile isSpaceC
        let digitsOnly := numPart.filter isDigitC
        let suffixLen : ℕ :=
          match afterWs.head? with
          | some 'K' => 1 | some 'k' => 1
          | some 'M' => 1 | some 'm' => 1
          | some 'B' => 1 | some 'b' => 1
          | _ => 0
        let mult : ℚ :=
          match afterWs.head? with
          | some 'K' => 1000 | some 'k' => 1000
          | some 'M' => 1000000 | some 'm' => 1000000
          | some 'B' => 1000000000 | some 'b' => 1000000000
          | _ => 1
        let value := decimalValue digitsOnly fr.1 * mult
        if digitsOnly = [] then scanDollarF fuel (afterWs.drop suffixLen)
        else value :: scanDollarF fuel (afterWs.drop suffixLen)
    else scanDollarF fuel rest

/-- Entry point of the dollar scanner with sufficient fuel. -/
def scanDollar (s : Str) : List ℚ := scanDollarF s.length s

/-- Scanner for NUMBER_UNIT_RE over the text: a digit run, an optional
fraction, at least one whitespace character, then a unit word with a word
boundary; finditer semantics. A failed attempt advances one character, which
agrees with the regex engine because every restart inside the same digit run
fails for the same reason (the characters after the run are unchanged). The
fuel argument makes the recursion structural, as in scanDollarF. -/
def scanUnitF : ℕ → Str → List ℚ
  | _, [] => []
  | 0, _ => []
  | fuel + 1, c :: rest =>
    if isDigitC c then
      let ds := c :: rest.takeWhile isDigitC
      let fr := takeFraction (rest.drop (rest.takeWhile isDigitC).length)
      let ws := fr.2.takeWhile isSpaceC
      let afterWs := fr.2.drop ws.length
      if ws = [] then scanUnitF fuel rest
      else
        match unitWordLen afterWs with
        | some n => decimalValue ds fr.1 :: scanUnitF fuel (afterWs.drop n)
        | none => scanUnitF fuel rest
    else scanUnitF fuel rest

/-- Entry point of the unit scanner with sufficient fuel. -/
def scanUnit (s : Str) : List ℚ := scanUnitF s.length s

/-- _extract_numeric_thresholds: dollar amounts then unit measurements. The
Python set is modelled as the list of values; the only consumers test
emptiness and intersection, which ignore duplication and order. -/
def extract_numeric_thresholds (text : Str) : List ℚ :=
  scanDollar text ++ scanUnit text

/-- _thresholds_compatible: false exactly when both sides carry thresholds
and they do not intersect. -/
def thresholds_compatible (poly_q kalshi_q : Str) : Bool :=
  let poly_vals := extract_numeric_thresholds poly_q
  let kalshi_vals := extract_numeric_thresholds kalshi_q
  if poly_vals ≠ [] ∧ kalshi_vals ≠ [] ∧ ¬ poly_vals.any (fun v => kalshi_vals.contains v) then
    false
  else true

/-- _pass2_confirm: confidence gate, market lookup, the external call
(reply), and the verdict handling — a missing reply, an unparseable reply,
an unconfirmed verdict and a confirmed-but-inverted verdict all return
none; a confirmed aligned verdict returns the match dictionary. -/
def pass2_confirm (reply : GroqReply) (candidate : Cand)
    (markets : Str → Option MarketD) : Option MatchOut :=
  if candidate.confidence < confidenceThreshold then none
  else
    match markets candidate.poly_id, markets candidate.kalshi_id with
    | some poly, some kalshi =>
      match reply with
      | .noResponse => none
      | .unparseable => none
      | .verdict confirmed inverted =>
        if confirmed then
          if inverted then none
          else
            some { polymarket_id := candidate.poly_id
                   kalshi_id := candidate.kalshi_id
                   confidence := candidate.confidence
                   question := poly.question
                   polymarket_yes := poly.yes_price
                   kalshi_yes := kalshi.yes_price }
        else none
    | _, _ => none

/-- Mutable state threaded through the Pass 2 loop of match_markets. -/
structure P2State where
  cachedKeys : List Str
  rejectedKeys : List Str
  llmCalls : ℕ
  confirmed : List MatchOut
deriving Repr, DecidableEq

/-- The Pass 2 candidate loop of match_markets (the for-loop after the
candidate merge): the per-cycle cap, the persisted-match and rejection-cache
skips, the date and numeric-threshold prefilters (both of which cache the
key on a miss), the confirmation call, and for a confirmed result the
secondary deterministic orientation check that rejects and caches an
INVERTED sports pair. The markets argument is the all_markets id lookup;
oracle gives each candidate's confirmation outcome. The except-branch
around _pass2_confirm is dead here because the embedded call is total. -/
def matchMarketsPass2 (oracle : Cand → GroqReply) (markets : Str → Option MarketD)
    (cap : ℕ) : List Cand → P2State → P2State
  | [], st => st
  | cand :: rest, st =>
    if cap ≤ st.llmCalls then st
    else
      let key := cache_key cand.poly_id cand.kalshi_id
      if key ∈ st.cachedKeys then matchMarketsPass2 oracle markets cap rest st
      else if key ∈ st.rejectedKeys then matchMarketsPass2 oracle markets cap rest st
      else
        let poly_market := markets cand.poly_id
        let kalshi_market := markets cand.kalshi_id
        if ¬ dates_compatible (poly_market.bind (fun m => m.end_date))
            (kalshi_market.bind (fun m => m.end_date)) then
          matchMarketsPass2 oracle markets cap rest
            { st with rejectedKeys := st.rejectedKeys ++ [key] }
        else if ¬ thresholds_compatible
            ((poly_market.map (fun m => m.question)).getD [])
            ((kalshi_market.map (fun m => m.question)).getD []) then
          matchMarketsPass2 oracle markets cap rest
            { st with rejectedKeys := st.rejectedKeys ++ [key] }
        else
          let result := pass2_confirm (oracle cand) cand markets
          let st1 := { st with llmCalls := st.llmCalls + 1 }
          match result with
          | some m =>
            match parse_poly_slug ((poly_market.map (fun mk => mk.event_slug)).getD []) with
            | some (_, team1, team2, _) =>
              if check_sports_orientation cand.kalshi_id team1 team2 = .inverted then
                matchMarketsPass2 oracle markets cap rest
                  { st1 with rejectedKeys := st1.rejectedKeys ++ [key] }
              else
                matchMarketsPass2 oracle markets cap rest
                  { st1 with confirmed := st1.confirmed ++ [m] }
            | none =>
              matchMarketsPass2 oracle markets cap rest
                { st1 with confirmed := st1.confirmed ++ [m] }
          | none =>
            matchMarketsPass2 oracle markets cap rest
              { st1 with rejectedKeys := st1.rejectedKeys ++ [key] }

-- ---------------------------------------------------------------------------
-- embeddings.py — eligibility filters, delta-embed selection, candidates
-- ---------------------------------------------------------------------------

/-- Platform tag polymarket. -/
def polymarketStr : Str := ['p', 'o', 'l', 'y', 'm', 'a', 'r', 'k', 'e', 't']

/-- Platform tag kalshi. -/
def kalshiStr : Str := ['k', 'a', 'l', 's', 'h', 'i']

/-- Row of the markets table, restricted to the columns the embedding
queries read. -/
structure EmbMarketRow where
  id : Str
  platform : Str
  question : Str
  volume : ℚ
  yes_price : ℚ
deriving Repr, DecidableEq

/-- Row of the market_embeddings table; the embedding BLOB itself is not
consumed by any embedded claim and is omitted, the content hash is kept. -/
structure EmbRow where
  market_id : Str
  question_hash : Str
deriving Repr, DecidableEq

/-- Database state seen by embeddings.py. -/
structure EmbDb where
  markets : List EmbMarketRow
  embeddings : List EmbRow
deriving Repr, DecidableEq

/-- The ACTIVE_MARKET_FILTER SQL predicate: volume > 0 AND yes_price
BETWEEN 0.02 AND 0.98. SQL BETWEEN is inclusive at both endpoints. -/
def activeMarketFilter (m : EmbMarketRow) : Bool :=
  decide (0 < m.volume) && decide (mkRat 1 50 ≤ m.yes_price) &&
    decide (m.yes_price ≤ mkRat 49 50)

/-- _question_hash: sha256 of the stripped lowercased question. The digest
is modelled by the digested string itself; the hash is only compared for
equality against hashes computed the same way. -/
def question_hash (question : Str) : Str := lowerStr (stripStr question)

/-- The selection phase of embed_new_markets (lines 98-133): delete
embeddings of inactive markets, collect active markets with no embedding
row (LEFT JOIN miss) and active markets whose stored hash no longer matches
their question, in that order. The returned list is exactly the to_embed
batch sent to the external embedding service and then upserted; market_id
is the primary key of market_embeddings, so the JOIN pairs each market with
at most one embedding row (find?). -/
def embed_new_markets_to_embed (db : EmbDb) : List EmbMarketRow :=
  let embeddings1 := db.embeddings.filter
    (fun e => db.markets.any (fun m => m.id == e.market_id && activeMarketFilter m))
  let newMarkets := db.markets.filter
    (fun m => activeMarketFilter m &&
      (embeddings1.find? (fun e => e.market_id == m.id)).isNone)
  let changed := db.markets.filter
    (fun m => activeMarketFilter m &&
      (match embeddings1.find? (fun e => e.market_id == m.id) with
       | some e => e.question_hash != question_hash m.question
       | none => false))
  newMarkets ++ changed

/-- Candidate dictionary produced by find_embedding_candidates. -/
structure EmbCand where
  poly_id : Str
  kalshi_id : Str
  confidence : ℚ
deriving Repr, DecidableEq

/-- _SIMILARITY_THRESHOLD. -/
def similarityThreshold : ℚ := mkRat 85 100

/-- find_embedding_candidates: join embedded active markets per platform,
emit every cross pair whose cosine similarity reaches the threshold
(row-major, Polymarket outer), sorted by confidence descending. The numpy
cosine similarity of the two stored float vectors is abstracted as the
rational-valued function sim of the two market ids. -/
def find_embedding_candidates (sim : Str → Str → ℚ) (threshold : ℚ)
    (db : EmbDb) : List EmbCand :=
  let polyRows := db.embeddings.filter
    (fun e => db.markets.any (fun m =>
      m.id == e.market_id && m.platform == polymarketStr && activeMarketFilter m))
  let kalshiRows := db.embeddings.filter
    (fun e => db.markets.any (fun m =>
      m.id == e.market_id && m.platform == kalshiStr && activeMarketFilter m))
  if polyRows = [] ∨ kalshiRows = [] then []
  else
    let candidates := polyRows.flatMap (fun p =>
      kalshiRows.filterMap (fun k =>
        if threshold ≤ sim p.market_id k.market_id then
          some { poly_id := p.market_id
                 kalshi_id := k.market_id
                 confidence := pyRound4 (sim p.market_id k.market_id) }
        else none))
    candidates.mergeSort (fun a b => decide (b.confidence ≤ a.confidence))

-- ---------------------------------------------------------------------------
-- poller.py — Step 1.5 diff-based cleanup of _run_cycle
-- ---------------------------------------------------------------------------

/-- Row of the matches table, restricted to the columns cleanup reads. -/
structure PollMatchRow where
  id : ℕ
  polymarket_id : Str
  kalshi_id : Str
deriving Repr, DecidableEq

/-- Persisted state touched by the cleanup step: market ids, match rows,
price-history rows (each standing for its match_id foreign key) and
embedding rows (standing for their market_id). -/
structure PollDb where
  markets : List Str
  matchRows : List PollMatchRow
  history : List ℕ
  embeddings : List Str
deriving Repr, DecidableEq

/-- Step 1.5 of _run_cycle: the guarded diff cleanup. Under the guard
(both fetch counts positive and both id lists non-empty) it deletes, in
order: history rows of stale matches, stale matches (either side absent
from the fresh listings), orphaned embeddings, and stale markets. With the
guard failed, the state is returned untouched. -/
def diff_cleanup (poly_ids kalshi_ids : List Str)
    (poly_fetched kalshi_fetched : ℕ) (db : PollDb) : PollDb :=
  if 0 < poly_fetched ∧ 0 < kalshi_fetched ∧ poly_ids ≠ [] ∧ kalshi_ids ≠ [] then
    let all_active_ids := poly_ids ++ kalshi_ids
    let staleMatchIds := (db.matchRows.filter (fun m =>
      ¬ m.polymarket_id ∈ poly_ids ∨ ¬ m.kalshi_id ∈ kalshi_ids)).map (fun m => m.id)
    { markets := db.markets.filter (fun i => i ∈ all_active_ids)
      matchRows := db.matchRows.filter (fun m =>
        m.polymarket_id ∈ poly_ids ∧ m.kalshi_id ∈ kalshi_ids)
      history := db.history.filter (fun h => ¬ h ∈ staleMatchIds)
      embeddings := db.embeddings.filter (fun i => i ∈ all_active_ids) }
  else db

-- ---------------------------------------------------------------------------
-- ws_manager.py — _update_market_and_matches
-- ---------------------------------------------------------------------------

/-- Row of the markets table as read by the streaming update. -/
structure WsMarketRow where
  id : Str
  yes_price : ℚ
  no_price : ℚ
deriving Repr, DecidableEq

/-- Row of the matches table as written by the streaming update. -/
structure WsMatchRow where
  id : ℕ
  polymarket_id : Str
  kalshi_id : Str
  spread : ℚ
  fee_adjusted_spread : ℚ
  polymarket_yes : ℚ
  kalshi_yes : ℚ
deriving Repr, DecidableEq

/-- Row appended to price_history by the streaming update. -/
structure WsHistRow where
  match_id : ℕ
  polymarket_yes : ℚ
  kalshi_yes : ℚ
  spread : ℚ
  fee_adjusted_spread : ℚ
deriving Repr, DecidableEq

/-- Combined DB state plus the module-level throttle map
_last_history_ts (match_id to last insert monotonic time, default 0.0). -/
structure WsState where
  markets : List WsMarketRow
  matchRows : List WsMatchRow
  history : List WsHistRow
  lastHistoryTs : List (ℕ × ℚ)
deriving Repr, DecidableEq

/-- _HISTORY_INTERVAL. -/
def historyInterval : ℚ := 15

/-- _last_history_ts.get(match_id, 0.0). -/
def lastTsGet (ts : List (ℕ × ℚ)) (match_id : ℕ) : ℚ :=
  (ts.lookup match_id).getD 0

/-- _last_history_ts[match_id] = now_ts: replace, or append if absent. -/
def lastTsSet (ts : List (ℕ × ℚ)) (match_id : ℕ) (now_ts : ℚ) : List (ℕ × ℚ) :=
  if (ts.lookup match_id).isSome then
    ts.map (fun p => if p.1 = match_id then (p.1, now_ts) else p)
  else ts ++ [(match_id, now_ts)]

/-- LEFT JOIN of a match side against the (already updated) markets table:
the id column is the primary key, so at most one row joins (find?); a miss
yields SQL NULL, and the Python or-0.0 coalescing maps it to 0. -/
def joinedYes (markets : List WsMarketRow) (market_id : Str) : ℚ :=
  ((markets.find? (fun r => r.id == market_id)).map (fun r => r.yes_price)).getD 0

/-- The recomputed matches-table row written by step 2 of
_update_market_and_matches for one affected match. -/
def wsUpdatedRow (markets1 : List WsMarketRow) (m : WsMatchRow) : WsMatchRow :=
  { m with
    spread := (calculate_spread (joinedYes markets1 m.polymarket_id)
      (joinedYes markets1 m.kalshi_id)).raw_spread
    fee_adjusted_spread := (calculate_spread (joinedYes markets1 m.polymarket_id)
      (joinedYes markets1 m.kalshi_id)).fee_adjusted_spread
    polymarket_yes := joinedYes markets1 m.polymarket_id
    kalshi_yes := joinedYes markets1 m.kalshi_id }

/-- The price_history row inserted by step 3 of _update_market_and_matches
for one affected match. -/
def wsHistRowOf (markets1 : List WsMarketRow) (m : WsMatchRow) : WsHistRow :=
  { match_id := m.id
    polymarket_yes := joinedYes markets1 m.polymarket_id
    kalshi_yes := joinedYes markets1 m.kalshi_id
    spread := (calculate_spread (joinedYes markets1 m.polymarket_id)
      (joinedYes markets1 m.kalshi_id)).raw_spread
    fee_adjusted_spread := (calculate_spread (joinedYes markets1 m.polymarket_id)
      (joinedYes markets1 m.kalshi_id)).fee_adjusted_spread }

/-- The per-affected-match body of _update_market_and_matches (steps 2-3):
recompute and write the spread columns when both joined prices are nonzero
(Python float truthiness: a 0.0 price skips the row), then append a
price_history row only when the throttle interval has elapsed for this
match id, updating the throttle map. Rows are processed in table order and
the throttle map is threaded through, as in the source loop. -/
def wsProcessMatches (now_ts : ℚ) (markets1 : List WsMarketRow) (market_id : Str) :
    List WsMatchRow → List (ℕ × ℚ) → List WsHistRow →
      List WsMatchRow × List (ℕ × ℚ) × List WsHistRow
  | [], ts, hist => ([], ts, hist)
  | m :: rest, ts, hist =>
    if m.polymarket_id = market_id ∨ m.kalshi_id = market_id then
      if joinedYes markets1 m.polymarket_id = 0 ∨
          joinedYes markets1 m.kalshi_id = 0 then
        let r := wsProcessMatches now_ts markets1 market_id rest ts hist
        (m :: r.1, r.2)
      else
        if historyInterval ≤ now_ts - lastTsGet ts m.id then
          let r := wsProcessMatches now_ts markets1 market_id rest
            (lastTsSet ts m.id now_ts) (hist ++ [wsHistRowOf markets1 m])
          (wsUpdatedRow markets1 m :: r.1, r.2)
        else
          let r := wsProcessMatches now_ts markets1 market_id rest ts hist
          (wsUpdatedRow markets1 m :: r.1, r.2)
    else
      let r := wsProcessMatches now_ts markets1 market_id rest ts hist
      (m :: r.1, r.2)

/-- _update_market_and_matches: write the new prices for the market row,
then process every match referencing that market against the updated
markets table. now_ts is the monotonic clock reading taken once per event. -/
def update_market_and_matches (st : WsState) (market_id : Str)
    (yes_price no_price : ℚ) (now_ts : ℚ) : WsState :=
  let markets1 := st.markets.map (fun r =>
    if r.id == market_id then { r with yes_price := yes_price, no_price := no_price }
    else r)
  let rst := wsProcessMatches now_ts markets1 market_id st.matchRows
    st.lastHistoryTs st.history
  { markets := markets1
    matchRows := rst.1
    history := rst.2.2
    lastHistoryTs := rst.2.1 }

/-- One streaming price event: the owning market id, the two prices and the
monotonic receipt time. -/
structure WsEvent where
  market_id : Str
  yes_price : ℚ
  no_price : ℚ
  ts : ℚ
deriving Repr, DecidableEq

/-- A sequence of streaming events applied in order. -/
def wsRunEvents (st : WsState) (events : List WsEvent) : WsState :=
  events.foldl
    (fun s e => update_market_and_matches s e.market_id e.yes_price e.no_price e.ts) st

/-- Number of history rows recorded for one match id. -/
def histCount (st : WsState) (match_id : ℕ) : ℕ :=
  (st.history.filter (fun h => h.match_id == match_id)).length
/-- Streaming-throttle fixture: one Polymarket/Kalshi market pair and one
match row referencing them, empty history and empty throttle map. -/
def c7_state : WsState :=
  ⟨[⟨['p'], mkRat 1 2, mkRat 1 2⟩, ⟨['k'], mkRat 3 10, mkRat 7 10⟩],
   [⟨1, ['p'], ['k'], 0, 0, 0, 0⟩], [], []⟩

/-- Ten price events for the same market, receipt times 1..10, all inside
one throttle window [0, _HISTORY_INTERVAL). -/
def c7_events : List WsEvent :=
  [⟨['p'], mkRat 2 5, mkRat 3 5, 1⟩, ⟨['p'], mkRat 2 5, mkRat 3 5, 2⟩,
   ⟨['p'], mkRat 2 5, mkRat 3 5, 3⟩, ⟨['p'], mkRat 2 5, mkRat 3 5, 4⟩,
   ⟨['p'], mkRat 2 5, mkRat 3 5, 5⟩, ⟨['p'], mkRat 2 5, mkRat 3 5, 6⟩,
   ⟨['p'], mkRat 2 5, mkRat 3 5, 7⟩, ⟨['p'], mkRat 2 5, mkRat 3 5, 8⟩,
   ⟨['p'], mkRat 2 5, mkRat 3 5, 9⟩, ⟨['p'], mkRat 2 5, mkRat 3 5, 10⟩]

/-- Date-matching fixture: the OKC/DET moneyline slug dated 2026-02-25. -/
def c6_poly : SportsPolyIn :=
  ⟨['p', '1'],
   ['n', 'b', 'a', '-', 'o', 'k', 'c', '-', 'd', 'e', 't', '-', '2', '0', '2', '6', '-', '0', '2', '-', '2', '5'],
   moneylineStr⟩

/-- Kalshi market id of the fixture game, YES side OKC. -/
def c6_kid : Str :=
  ['k', 'a', 'l', 's', 'h', 'i', ':', 'K', 'X', 'N', 'B', 'A', 'G', 'A', 'M', 'E', '-', '2', '6', 'F', 'E', 'B', '2', '5', 'O', 'K', 'C', 'D', 'E', 'T', '-', 'O', 'K', 'C']

/-- Event tickers for the same game dated Feb 25 / 24 / 20 / 26 of 2026. -/
def c6_exact : Str :=
  ['K', 'X', 'N', 'B', 'A', 'G', 'A', 'M', 'E', '-', '2', '6', 'F', 'E', 'B', '2', '5', 'O', 'K', 'C', 'D', 'E', 'T']

def c6_oneday : Str :=
  ['K', 'X', 'N', 'B', 'A', 'G', 'A', 'M', 'E', '-', '2', '6', 'F', 'E', 'B', '2', '4', 'O', 'K', 'C', 'D', 'E', 'T']

def c6_far : Str :=
  ['K', 'X', 'N', 'B', 'A', 'G', 'A', 'M', 'E', '-', '2', '6', 'F', 'E', 'B', '2', '0', 'O', 'K', 'C', 'D', 'E', 'T']

def c6_next : Str :=
  ['K', 'X', 'N', 'B', 'A', 'G', 'A', 'M', 'E', '-', '2', '6', 'F', 'E', 'B', '2', '6', 'O', 'K', 'C', 'D', 'E', 'T']

-- Rounding lemmas used by the calculator claims.

theorem pyRoundHalfEven_cases (x : ℚ) :
    pyRoundHalfEven x = ⌊x⌋ ∨ pyRoundHalfEven x = ⌊x⌋ + 1 := by
  unfold pyRoundHalfEven
  split_ifs <;> simp

theorem pyRoundHalfEven_nonneg (x : ℚ) (hx : 0 ≤ x) : 0 ≤ pyRoundHalfEven x := by
  have hf : (0:ℤ) ≤ ⌊x⌋ := Int.floor_nonneg.mpr hx
  rcases pyRoundHalfEven_cases x with h | h <;> omega

theorem pyRoundHalfEven_mono {x y : ℚ} (hxy : x ≤ y) :
    pyRoundHalfEven x ≤ pyRoundHalfEven y := by
  have hfl : ⌊x⌋ ≤ ⌊y⌋ := Int.floor_le_floor hxy
  rcases eq_or_lt_of_le hfl with heq | hlt
  · -- same integer part: compare the fractional parts
    unfold pyRoundHalfEven
    have hr : x - ⌊x⌋ ≤ y - ⌊y⌋ := by
      rw [← heq]; exact sub_le_sub_right hxy _
    split_ifs with h1 h2 h3 h4 h5 h6 h7 h8 h9 h10 h11 <;>
      first
      | omega
      | linarith
  · -- floor strictly increases
    have hx1 : pyRoundHalfEven x ≤ ⌊x⌋ + 1 := by
      rcases pyRoundHalfEven_cases x with h | h <;> omega
    have hy1 : ⌊y⌋ ≤ pyRoundHalfEven y := by
      rcases pyRoundHalfEven_cases y with h | h <;> omega
    omega

theorem pyRound4_nonneg (x : ℚ) (hx : 0 ≤ x) : 0 ≤ pyRound4 x := by
  unfold pyRound4
  have h : (0:ℤ) ≤ pyRoundHalfEven (x * 10000) :=
    pyRoundHalfEven_nonneg _ (by positivity)
  positivity

theorem pyRound4_mono {x y : ℚ} (hxy : x ≤ y) : pyRound4 x ≤ pyRound4 y := by
  unfold pyRound4
  have h : pyRoundHalfEven (x * 10000) ≤ pyRoundHalfEven (y * 10000) :=
    pyRoundHalfEven_mono (by linarith)
  gcongr
  try exact_mod_cast h

theorem calculate_spread_fee_adjusted_eq (poly_yes kalshi_yes : ℚ) :
    (calculate_spread poly_yes kalshi_yes).fee_adjusted_spread =
      pyRound4 (max 0 (|poly_yes - kalshi_yes| - kalshi_fee kalshi_yes
        - polymarket_fee poly_yes)) := by
  rcases le_or_lt kalshi_yes poly_yes with h | h
  · have habs : |poly_yes - kalshi_yes| = poly_yes - kalshi_yes :=
      abs_of_nonneg (by linarith)
    simp only [calculate_spread, if_pos h, habs, polymarket_fee]
    try ring_nf
  · have habs : |poly_yes - kalshi_yes| = -(poly_yes - kalshi_yes) :=
      abs_of_nonpos (by linarith)
    simp only [calculate_spread, if_neg (not_le.mpr h), habs, polymarket_fee]
    try ring_nf

theorem calculate_spread_fee_adjusted_nonneg (poly_yes kalshi_yes : ℚ) :
    0 ≤ (calculate_spread poly_yes kalshi_yes).fee_adjusted_spread := by
  rw [calculate_spread_fee_adjusted_eq]
  exact pyRound4_nonneg _ (le_max_left _ _)

-- ---------------------------------------------------------------------------
-- Claim theorems
-- ---------------------------------------------------------------------------

/-- C2: for all YES prices poly_yes and kalshi_yes in the unit interval,
calculate_spread returns a fee_adjusted_spread that is never negative; and
for fixed fee values (polymarket_fee is identically zero, so fixing the fees
means fixing kalshi_fee of the Kalshi price), the fee-adjusted spread is
monotonically non-decreasing in the raw spread of the two YES prices. -/
theorem claim_C2_spread_nonneg_and_monotone :
    (∀ poly_yes kalshi_yes : ℚ,
        0 ≤ poly_yes → poly_yes ≤ 1 → 0 ≤ kalshi_yes → kalshi_yes ≤ 1 →
        0 ≤ (calculate_spread poly_yes kalshi_yes).fee_adjusted_spread) ∧
    (∀ p1 k1 p2 k2 : ℚ,
        0 ≤ p1 → p1 ≤ 1 → 0 ≤ k1 → k1 ≤ 1 →
        0 ≤ p2 → p2 ≤ 1 → 0 ≤ k2 → k2 ≤ 1 →
        kalshi_fee k1 = kalshi_fee k2 →
        |p1 - k1| ≤ |p2 - k2| →
        (calculate_spread p1 k1).fee_adjusted_spread ≤
          (calculate_spread p2 k2).fee_adjusted_spread) := by
  constructor
  · intro poly_yes kalshi_yes _ _ _ _
    exact calculate_spread_fee_adjusted_nonneg poly_yes kalshi_yes
  · intro p1 k1 p2 k2 _ _ _ _ _ _ _ _ hfee hraw
    rw [calculate_spread_fee_adjusted_eq, calculate_spread_fee_adjusted_eq]
    apply pyRound4_mono
    apply max_le_max le_rfl
    simp only [polymarket_fee]
    linarith [hraw, hfee.le, hfee.ge]

/-- Witness for C2: concrete prices discharging every hypothesis. The first
pair has raw spread 0.2, the second 0.4, both against Kalshi price 0.5 so
the fee values agree. -/
theorem claim_C2_witness :
    0 ≤ (calculate_spread (7/10) (1/2)).fee_adjusted_spread ∧
      (calculate_spread (7/10) (1/2)).fee_adjusted_spread ≤
        (calculate_spread (9/10) (1/2)).fee_adjusted_spread :=
  ⟨claim_C2_spread_nonneg_and_monotone.1 (7/10) (1/2)
      (by norm_num) (by norm_num) (by norm_num) (by norm_num),
   claim_C2_spread_nonneg_and_monotone.2 (7/10) (1/2) (9/10) (1/2)
      (by norm_num) (by norm_num) (by norm_num) (by norm_num)
      (by norm_num) (by norm_num) (by norm_num) (by norm_num)
      rfl (by norm_num [abs_of_nonneg])⟩

/-- C10: parse_kalshi_event_ticker is total — in this embedding it is a
total function into an Option, so it returns either a parse or none on every
input and cannot raise (the only Python-level exception source, the
datetime constructor, is embedded as the guarded day-in-month check) — and
each of the malformed inputs named by the claim is rejected with none: the
empty string, a hyphenless string, an unknown series prefix, a suffix that
does not match the date+teams pattern, an unknown month abbreviation, and a
day that is not a valid calendar date (February 30). A well-formed ticker
parses to a value. -/
theorem claim_C10_parse_kalshi_total :
    (∀ s : Str, (parse_kalshi_event_ticker s).isSome ∨
        (parse_kalshi_event_ticker s).isNone) ∧
    parse_kalshi_event_ticker [] = none ∧
    parse_kalshi_event_ticker
      ['K', 'X', 'N', 'B', 'A', 'G', 'A', 'M', 'E', '2', '6', 'F', 'E', 'B',
       '2', '5', 'O', 'K', 'C', 'D', 'E', 'T'] = none ∧
    parse_kalshi_event_ticker
      ['K', 'X', 'U', 'N', 'K', 'N', 'O', 'W', 'N', '-', '2', '6', 'F', 'E',
       'B', '2', '5', 'O', 'K', 'C', 'D', 'E', 'T'] = none ∧
    parse_kalshi_event_ticker
      ['K', 'X', 'N', 'B', 'A', 'G', 'A', 'M', 'E', '-', 'I', 'N', 'V', 'A',
       'L', 'I', 'D', 'F', 'O', 'R', 'M', 'A', 'T'] = none ∧
    parse_kalshi_event_ticker
      ['K', 'X', 'N', 'B', 'A', 'G', 'A', 'M', 'E', '-', '2', '6', 'X', 'Y',
       'Z', '2', '5', 'O', 'K', 'C', 'D', 'E', 'T'] = none ∧
    parse_kalshi_event_ticker
      ['K', 'X', 'N', 'B', 'A', 'G', 'A', 'M', 'E', '-', '2', '6', 'F', 'E',
       'B', '3', '0', 'O', 'K', 'C', 'D', 'E', 'T'] = none ∧
    parse_kalshi_event_ticker
      ['K', 'X', 'N', 'B', 'A', 'G', 'A', 'M', 'E', '-', '2', '6', 'F', 'E',
       'B', '2', '5', 'O', 'K', 'C', 'D', 'E', 'T'] =
      some (['n', 'b', 'a'], ['o', 'k', 'c', 'd', 'e', 't'],
            ['2', '0', '2', '6', '-', '0', '2', '-', '2', '5']) := by
  refine ⟨fun s => ?_, ?_, ?_, ?_, ?_, ?_, ?_, ?_⟩
  · cases parse_kalshi_event_ticker s <;> simp
  all_goals decide

/-- C9: whenever the Kalshi market id carries the kalshi: tag, its ticker
part has at least two hyphens, its event-ticker portion parses as a sports
ticker, and the lowercased YES-team suffix prefix-matches both Polymarket
team codes, check_sports_orientation answers aligned: team1 is tested
before team2, so an ambiguous suffix is never reported inverted. -/
theorem claim_C9_ambiguous_suffix_is_aligned
    (kid t1 t2 : Str)
    (hpre : kalshiColonStr.isPrefixOf kid = true)
    (hcount : 2 ≤ countC '-' (kid.drop 7))
    (hparse : (parse_kalshi_event_ticker (rsplitOnceC '-' (kid.drop 7)).1).isSome)
    (h1 : teams_match (lowerStr (rsplitOnceC '-' (kid.drop 7)).2) t1 = true)
    (_h2 : teams_match (lowerStr (rsplitOnceC '-' (kid.drop 7)).2) t2 = true) :
    check_sports_orientation kid t1 t2 = SportsOrient.aligned := by
  have hnone : (parse_kalshi_event_ticker (rsplitOnceC '-' (kid.drop 7)).1).isNone = false := by
    rcases hx : parse_kalshi_event_ticker (rsplitOnceC '-' (kid.drop 7)).1 with _ | v
    · rw [hx] at hparse; simp at hparse
    · simp
  simp only [check_sports_orientation, hpre, not_true, if_false, hnone,
    Bool.false_eq_true, if_neg (not_lt.mpr hcount), h1, if_true]
  try simp

/-- Witness for C9: the suffix OKC prefix-matches both the 2-character code
ok (as team1) and the full code okc (as team2); the verdict is aligned. -/
theorem claim_C9_witness :
    check_sports_orientation
      ['k', 'a', 'l', 's', 'h', 'i', ':', 'K', 'X', 'N', 'B', 'A', 'G', 'A',
       'M', 'E', '-', '2', '6', 'F', 'E', 'B', '2', '5', 'O', 'K', 'C', 'D',
       'E', 'T', '-', 'O', 'K', 'C'] ['o', 'k'] ['o', 'k', 'c'] =
      SportsOrient.aligned :=
  claim_C9_ambiguous_suffix_is_aligned _ _ _ (by decide) (by decide) (by decide)
    (by decide) (by decide)

/-- C3: the diff-cleanup step of one discovery cycle runs only when both
ingests returned a non-empty listing. First part: if either fetch count is
zero or either id list is empty, the persisted state (markets, matches,
history rows, embeddings) is returned unchanged. Second part: when both
listings are non-empty, every match with either side absent from the fresh
listings is deleted, and every history row referencing such a match is
deleted with it. -/
theorem claim_C3_cleanup_guard_and_stale_deletion :
    (∀ (poly_ids kalshi_ids : List Str) (pf kf : ℕ) (db : PollDb),
        pf = 0 ∨ kf = 0 ∨ poly_ids = [] ∨ kalshi_ids = [] →
        diff_cleanup poly_ids kalshi_ids pf kf db = db) ∧
    (∀ (poly_ids kalshi_ids : List Str) (pf kf : ℕ) (db : PollDb),
        0 < pf → 0 < kf → poly_ids ≠ [] → kalshi_ids ≠ [] →
        ∀ m ∈ db.matchRows,
          (m.polymarket_id ∉ poly_ids ∨ m.kalshi_id ∉ kalshi_ids) →
          m ∉ (diff_cleanup poly_ids kalshi_ids pf kf db).matchRows ∧
          ∀ h ∈ (diff_cleanup poly_ids kalshi_ids pf kf db).history, h ≠ m.id) := by
  constructor
  · intro poly_ids kalshi_ids pf kf db hguard
    unfold diff_cleanup
    rw [if_neg]
    rintro ⟨h1, h2, h3, h4⟩
    rcases hguard with h | h | h | h <;> first | omega | exact h3 h | exact h4 h
  · intro poly_ids kalshi_ids pf kf db hpf hkf hpids hkids m hm hstale
    have hguard : 0 < pf ∧ 0 < kf ∧ poly_ids ≠ [] ∧ kalshi_ids ≠ [] :=
      ⟨hpf, hkf, hpids, hkids⟩
    constructor
    · unfold diff_cleanup
      rw [if_pos hguard]
      intro hmem
      have hkeep := (List.mem_filter.mp hmem).2
      simp only [decide_eq_true_eq] at hkeep
      rcases hstale with h | h
      · exact h hkeep.1
      · exact h hkeep.2
    · intro h hh
      unfold diff_cleanup at hh
      rw [if_pos hguard] at hh
      simp only [List.mem_filter, decide_eq_true_eq] at hh
      intro heq
      apply hh.2
      rw [heq]
      simp only [List.mem_map]
      refine ⟨m, ?_, rfl⟩
      simp only [List.mem_filter, decide_eq_true_eq]
      refine ⟨hm, ?_⟩
      rcases hstale with h1 | h1
      · exact Or.inl h1
      · exact Or.inr h1

/-- Witness for C3: one stale match (its Kalshi side missing from the fresh
listing) with one history row; the guard branch is exercised with a zero
Kalshi fetch count on the same state. -/
theorem claim_C3_witness :
    (diff_cleanup [['a']] [['b']] 1 0
        ⟨[['a'], ['c']], [⟨5, ['a'], ['c']⟩], [5], [['a']]⟩ =
      ⟨[['a'], ['c']], [⟨5, ['a'], ['c']⟩], [5], [['a']]⟩) ∧
    (⟨5, ['a'], ['c']⟩ ∉
        (diff_cleanup [['a']] [['b']] 1 1
          ⟨[['a'], ['c']], [⟨5, ['a'], ['c']⟩], [5], [['a']]⟩).matchRows ∧
      ∀ h ∈ (diff_cleanup [['a']] [['b']] 1 1
          ⟨[['a'], ['c']], [⟨5, ['a'], ['c']⟩], [5], [['a']]⟩).history, h ≠ 5) :=
  ⟨claim_C3_cleanup_guard_and_stale_deletion.1 [['a']] [['b']] 1 0 _
      (Or.inr (Or.inl rfl)),
   claim_C3_cleanup_guard_and_stale_deletion.2 [['a']] [['b']] 1 1 _
      (by decide) (by decide) (by decide) (by decide) ⟨5, ['a'], ['c']⟩
      (by decide) (by decide)⟩

/-- C8 counterexample: the eligibility interval of the SQL filter is the
closed interval — yes_price BETWEEN 0.02 AND 0.98 includes both endpoints —
so a positive-volume market whose YES price is exactly 0.02 is selected for
embedding, and with an embedding stored it appears in an
embedding-similarity candidate pair; the claim asserts it is never embedded
and never appears in a pair. -/
theorem claim_C8_counterexample :
    (EmbMarketRow.mk ['p', 'm', ':', '1'] polymarketStr ['q'] 1 (mkRat 1 50) ∈
      embed_new_markets_to_embed
        ⟨[⟨['p', 'm', ':', '1'], polymarketStr, ['q'], 1, mkRat 1 50⟩], []⟩) ∧
    ((find_embedding_candidates (fun _ _ => 1) similarityThreshold
        ⟨[⟨['p', 'm', ':', '1'], polymarketStr, ['q'], 1, mkRat 1 50⟩,
          ⟨['k', 's', ':', '1'], kalshiStr, ['q'], 1, mkRat 1 2⟩],
         [⟨['p', 'm', ':', '1'], ['q']⟩, ⟨['k', 's', ':', '1'], ['q']⟩]⟩).map
        (fun c => (c.poly_id, c.kalshi_id)) =
      [(['p', 'm', ':', '1'], ['k', 's', ':', '1'])]) := by
  constructor
  · decide
  · have hfilters :
        ([⟨['p', 'm', ':', '1'], ['q']⟩, ⟨['k', 's', ':', '1'], ['q']⟩] :
            List EmbRow).filter (fun e =>
          [(⟨['p', 'm', ':', '1'], polymarketStr, ['q'], 1, mkRat 1 50⟩ :
              EmbMarketRow),
           ⟨['k', 's', ':', '1'], kalshiStr, ['q'], 1, mkRat 1 2⟩].any (fun m =>
            m.id == e.market_id && m.platform == polymarketStr &&
              activeMarketFilter m)) = [⟨['p', 'm', ':', '1'], ['q']⟩] := by
      decide
    unfold find_embedding_candidates
    rw [if_neg (by decide)]
    simp only [List.map]
    rw [show ([⟨['p', 'm', ':', '1'], ['q']⟩, ⟨['k', 's', ':', '1'], ['q']⟩] :
          List EmbRow).filter (fun e =>
        [(⟨['p', 'm', ':', '1'], polymarketStr, ['q'], 1, mkRat 1 50⟩ :
            EmbMarketRow),
         ⟨['k', 's', ':', '1'], kalshiStr, ['q'], 1, mkRat 1 2⟩].any (fun m =>
          m.id == e.market_id && m.platform == polymarketStr &&
            activeMarketFilter m)) = [⟨['p', 'm', ':', '1'], ['q']⟩] from by decide]
    rw [show ([⟨['p', 'm', ':', '1'], ['q']⟩, ⟨['k', 's', ':', '1'], ['q']⟩] :
          List EmbRow).filter (fun e =>
        [(⟨['p', 'm', ':', '1'], polymarketStr, ['q'], 1, mkRat 1 50⟩ :
            EmbMarketRow),
         ⟨['k', 's', ':', '1'], kalshiStr, ['q'], 1, mkRat 1 2⟩].any (fun m =>
          m.id == e.market_id && m.platform == kalshiStr &&
            activeMarketFilter m)) = [⟨['k', 's', ':', '1'], ['q']⟩] from by decide]
    have hle : similarityThreshold ≤ (1:ℚ) := by decide
    simp [hle]

/-- C8 as amended: eligibility for embedding and for embedding-similarity
candidate generation requires positive volume and a YES price in the CLOSED
interval from 0.02 to 0.98 inclusive (SQL BETWEEN): every market selected
for embedding satisfies this filter, and both sides of every candidate pair
are embedded markets satisfying it; a market with zero volume or price
outside the closed interval is never embedded and never appears in a pair. -/
theorem claim_C8_closed_interval_eligibility
    (db : EmbDb) (sim : Str → Str → ℚ) (threshold : ℚ) :
    (∀ m ∈ embed_new_markets_to_embed db,
        0 < m.volume ∧ mkRat 1 50 ≤ m.yes_price ∧ m.yes_price ≤ mkRat 49 50) ∧
    (∀ c ∈ find_embedding_candidates sim threshold db,
        (∃ m ∈ db.markets, m.id = c.poly_id ∧ m.platform = polymarketStr ∧
          0 < m.volume ∧ mkRat 1 50 ≤ m.yes_price ∧ m.yes_price ≤ mkRat 49 50) ∧
        (∃ m ∈ db.markets, m.id = c.kalshi_id ∧ m.platform = kalshiStr ∧
          0 < m.volume ∧ mkRat 1 50 ≤ m.yes_price ∧ m.yes_price ≤ mkRat 49 50)) := by
  constructor
  · intro m hm
    have hf : activeMarketFilter m = true := by
      unfold embed_new_markets_to_embed at hm
      simp only [List.mem_append, List.mem_filter] at hm
      rcases hm with ⟨_, h⟩ | ⟨_, h⟩ <;>
        simp only [Bool.and_eq_true] at h <;> exact h.1
    unfold activeMarketFilter at hf
    simp only [Bool.and_eq_true, decide_eq_true_eq] at hf
    exact ⟨hf.1.1, hf.1.2, hf.2⟩
  · intro c hc
    unfold find_embedding_candidates at hc
    by_cases hempty : (db.embeddings.filter (fun e => db.markets.any (fun m =>
          m.id == e.market_id && m.platform == polymarketStr &&
            activeMarketFilter m)) = []) ∨
        (db.embeddings.filter (fun e => db.markets.any (fun m =>
          m.id == e.market_id && m.platform == kalshiStr &&
            activeMarketFilter m)) = [])
    · rw [if_pos hempty] at hc
      simp at hc
    · rw [if_neg hempty] at hc
      rw [List.mem_mergeSort] at hc
      simp only [List.mem_flatMap, List.mem_filterMap, List.mem_filter] at hc
      obtain ⟨p, ⟨hp_mem, hp_any⟩, k, ⟨⟨hk_mem, hk_any⟩, hk_if⟩⟩ := hc
      have hc_ids : c.poly_id = p.market_id ∧ c.kalshi_id = k.market_id := by
        by_cases hth : threshold ≤ sim p.market_id k.market_id
        · rw [if_pos hth] at hk_if
          cases hk_if
          exact ⟨rfl, rfl⟩
        · rw [if_neg hth] at hk_if
          cases hk_if
      simp only [List.any_eq_true, Bool.and_eq_true, beq_iff_eq] at hp_any hk_any
      obtain ⟨mp, hmp_mem, ⟨⟨hmp_id, hmp_plat⟩, hmp_f⟩⟩ := hp_any
      obtain ⟨mk, hmk_mem, ⟨⟨hmk_id, hmk_plat⟩, hmk_f⟩⟩ := hk_any
      unfold activeMarketFilter at hmp_f hmk_f
      simp only [Bool.and_eq_true, decide_eq_true_eq] at hmp_f hmk_f
      constructor
      · exact ⟨mp, hmp_mem, by rw [hc_ids.1, hmp_id], hmp_plat,
          hmp_f.1.1, hmp_f.1.2, hmp_f.2⟩
      · exact ⟨mk, hmk_mem, by rw [hc_ids.2, hmk_id], hmk_plat,
          hmk_f.1.1, hmk_f.1.2, hmk_f.2⟩

/-- Witness for C8 as amended, at the same concrete database as the
counterexample: the selected market and the single candidate pair satisfy
the closed-interval filter. -/
theorem claim_C8_witness :
    (∀ m ∈ embed_new_markets_to_embed
        ⟨[⟨['p', 'm', ':', '1'], polymarketStr, ['q'], 1, mkRat 1 50⟩], []⟩,
        0 < m.volume ∧ mkRat 1 50 ≤ m.yes_price ∧ m.yes_price ≤ mkRat 49 50) ∧
    (∀ c ∈ find_embedding_candidates (fun _ _ => 1) similarityThreshold
        ⟨[⟨['p', 'm', ':', '1'], polymarketStr, ['q'], 1, mkRat 1 50⟩,
          ⟨['k', 's', ':', '1'], kalshiStr, ['q'], 1, mkRat 1 2⟩],
         [⟨['p', 'm', ':', '1'], ['q']⟩, ⟨['k', 's', ':', '1'], ['q']⟩]⟩,
        (∃ m ∈ (EmbDb.mk
            [⟨['p', 'm', ':', '1'], polymarketStr, ['q'], 1, mkRat 1 50⟩,
             ⟨['k', 's', ':', '1'], kalshiStr, ['q'], 1, mkRat 1 2⟩]
            [⟨['p', 'm', ':', '1'], ['q']⟩, ⟨['k', 's', ':', '1'], ['q']⟩]).markets,
          m.id = c.poly_id ∧ m.platform = polymarketStr ∧
          0 < m.volume ∧ mkRat 1 50 ≤ m.yes_price ∧ m.yes_price ≤ mkRat 49 50) ∧
        (∃ m ∈ (EmbDb.mk
            [⟨['p', 'm', ':', '1'], polymarketStr, ['q'], 1, mkRat 1 50⟩,
             ⟨['k', 's', ':', '1'], kalshiStr, ['q'], 1, mkRat 1 2⟩]
            [⟨['p', 'm', ':', '1'], ['q']⟩, ⟨['k', 's', ':', '1'], ['q']⟩]).markets,
          m.id = c.kalshi_id ∧ m.platform = kalshiStr ∧
          0 < m.volume ∧ mkRat 1 50 ≤ m.yes_price ∧ m.yes_price ≤ mkRat 49 50)) :=
  ⟨(claim_C8_closed_interval_eligibility
      ⟨[⟨['p', 'm', ':', '1'], polymarketStr, ['q'], 1, mkRat 1 50⟩], []⟩
      (fun _ _ => 1) similarityThreshold).1,
   (claim_C8_closed_interval_eligibility
      ⟨[⟨['p', 'm', ':', '1'], polymarketStr, ['q'], 1, mkRat 1 50⟩,
        ⟨['k', 's', ':', '1'], kalshiStr, ['q'], 1, mkRat 1 2⟩],
       [⟨['p', 'm', ':', '1'], ['q']⟩, ⟨['k', 's', ':', '1'], ['q']⟩]⟩
      (fun _ _ => 1) similarityThreshold).2⟩

/-- Helper: a confirmation outcome that is not a confirmed aligned verdict
makes pass2_confirm return none, whatever the candidate and market lookup. -/
theorem pass2_confirm_none_of_negative (reply : GroqReply) (candidate : Cand)
    (markets : Str → Option MarketD)
    (h : reply = GroqReply.noResponse ∨ reply = GroqReply.unparseable ∨
      ∃ i, reply = GroqReply.verdict false i) :
    pass2_confirm reply candidate markets = none := by
  unfold pass2_confirm
  rcases h with h | h | ⟨i, h⟩ <;> subst h <;>
    rcases markets candidate.poly_id with _ | p <;>
    rcases markets candidate.kalshi_id with _ | k <;>
    split_ifs <;> rfl

/-- C1 counterexample: a candidate pair whose confirmation call returns no
response (service unavailable after retries) reaches the else-branch of the
Pass 2 loop and its key IS added to the process-lifetime rejection cache —
contradicting the claim that such a pair stays out of the cache and remains
eligible next cycle. Both markets exist, the pair passes the date and
threshold prefilters, and the cap is not reached. -/
theorem claim_C1_counterexample :
    cache_key ['p', 'o', 'l', 'y', ':', 'A'] ['k', 'a', 'l', 's', 'h', 'i', ':', 'B'] ∈
      (matchMarketsPass2 (fun _ => GroqReply.noResponse)
        (fun i =>
          ([⟨['p', 'o', 'l', 'y', ':', 'A'], ['q', 'a'], mkRat 3 5, none, []⟩,
            ⟨['k', 'a', 'l', 's', 'h', 'i', ':', 'B'], ['q', 'b'], mkRat 3 5, none, []⟩] :
            List MarketD).find? (fun m => m.id == i))
        maxConfirmationsPerCycle
        [⟨['p', 'o', 'l', 'y', ':', 'A'], ['k', 'a', 'l', 's', 'h', 'i', ':', 'B'], mkRat 4 5⟩]
        ⟨[], [], 0, []⟩).rejectedKeys := by
  decide

/-- C1 as amended: in the Pass 2 loop, a candidate that passes the cache
checks and both prefilters and whose confirmation call yields no usable
confirmation — absent response, unparseable response, or a well-formed
rejecting verdict — is treated as rejected AND its key is added to the
process-lifetime rejection cache (it is not retried until process restart);
nothing is added to the confirmed list. -/
theorem claim_C1_rejection_cache_on_failed_confirmation
    (oracle : Cand → GroqReply) (markets : Str → Option MarketD)
    (cap : ℕ) (cand : Cand) (st : P2State)
    (hcap : st.llmCalls < cap)
    (hcached : cache_key cand.poly_id cand.kalshi_id ∉ st.cachedKeys)
    (hrejected : cache_key cand.poly_id cand.kalshi_id ∉ st.rejectedKeys)
    (hdates : dates_compatible ((markets cand.poly_id).bind (fun m => m.end_date))
      ((markets cand.kalshi_id).bind (fun m => m.end_date)) = true)
    (hthr : thresholds_compatible (((markets cand.poly_id).map (fun m => m.question)).getD [])
      (((markets cand.kalshi_id).map (fun m => m.question)).getD []) = true)
    (hreply : oracle cand = GroqReply.noResponse ∨
      oracle cand = GroqReply.unparseable ∨
      ∃ i, oracle cand = GroqReply.verdict false i) :
    matchMarketsPass2 oracle markets cap [cand] st =
      { st with llmCalls := st.llmCalls + 1
                rejectedKeys := st.rejectedKeys ++
                  [cache_key cand.poly_id cand.kalshi_id] } := by
  have hnone : pass2_confirm (oracle cand) cand markets = none :=
    pass2_confirm_none_of_negative _ _ _ hreply
  unfold matchMarketsPass2
  rw [if_neg (not_le.mpr hcap), if_neg hcached, if_neg hrejected,
    if_neg (by rw [hdates]; exact fun h => h rfl),
    if_neg (by rw [hthr]; exact fun h => h rfl), hnone]
  simp [matchMarketsPass2]

/-- Witness for C1 as amended, at the counterexample input. -/
theorem claim_C1_witness :
    matchMarketsPass2 (fun _ => GroqReply.noResponse)
        (fun i =>
          ([⟨['p', 'o', 'l', 'y', ':', 'A'], ['q', 'a'], mkRat 3 5, none, []⟩,
            ⟨['k', 'a', 'l', 's', 'h', 'i', ':', 'B'], ['q', 'b'], mkRat 3 5, none, []⟩] :
            List MarketD).find? (fun m => m.id == i))
        maxConfirmationsPerCycle
        [⟨['p', 'o', 'l', 'y', ':', 'A'], ['k', 'a', 'l', 's', 'h', 'i', ':', 'B'], mkRat 4 5⟩]
        ⟨[], [], 0, []⟩ =
      ⟨[], [cache_key ['p', 'o', 'l', 'y', ':', 'A'] ['k', 'a', 'l', 's', 'h', 'i', ':', 'B']],
        1, []⟩ :=
  claim_C1_rejection_cache_on_failed_confirmation _ _ _ _ _
    (by decide) (by decide) (by decide) (by decide) (by decide) (Or.inl rfl)

/-- C5: the code has no price-based inversion tie-breaker. The repository's
own tests (TestPriceBasedInversionDetection in test_matcher.py) and the
specification require that an LLM-confirmed pair whose deterministic
orientation check answers unknown be rejected when the inverted price
interpretation fits far better than the aligned one (threshold about 0.20).
At the tests' exact live input — Polymarket YES 0.20, Kalshi YES 0.805,
orientation unknown, Groq confirming not-inverted — the aligned fit is
0.605 and the inverted fit 0.005, yet match_markets confirms the pair and
does not cache a rejection: the match is returned. The first two conjuncts
evaluate the embedded loop at the failing input; the last records the price
facts the required heuristic would have acted on. -/
theorem claim_C5_code_bug_no_price_inversion_check :
    ((matchMarketsPass2 (fun _ => GroqReply.verdict true false)
        (fun i =>
          ([⟨['p', 'o', 'l', 'y', ':', 'b', 'e', 'l', 'l', 'u', 'c', 'c', 'i'],
             ['q', 'a'], mkRat 1 5, none,
             ['a', 't', 'p', '-', 'b', 'e', 'l', 'l', 'u', 'c', 'c', '-',
              'f', 'o', 'k', 'i', 'n', 'a', '-', '2', '0', '2', '6', '-',
              '0', '2', '-', '2', '5']⟩,
            ⟨['k', 'a', 'l', 's', 'h', 'i', ':', 'b', 'e', 'l', 'd', 'a', 'v'],
             ['q', 'b'], mkRat 161 200, none, []⟩] :
            List MarketD).find? (fun m => m.id == i))
        maxConfirmationsPerCycle
        [⟨['p', 'o', 'l', 'y', ':', 'b', 'e', 'l', 'l', 'u', 'c', 'c', 'i'],
          ['k', 'a', 'l', 's', 'h', 'i', ':', 'b', 'e', 'l', 'd', 'a', 'v'],
          mkRat 4 5⟩]
        ⟨[], [], 0, []⟩).confirmed =
      [⟨['p', 'o', 'l', 'y', ':', 'b', 'e', 'l', 'l', 'u', 'c', 'c', 'i'],
        ['k', 'a', 'l', 's', 'h', 'i', ':', 'b', 'e', 'l', 'd', 'a', 'v'],
        mkRat 4 5, ['q', 'a'], mkRat 1 5, mkRat 161 200⟩]) ∧
    ((matchMarketsPass2 (fun _ => GroqReply.verdict true false)
        (fun i =>
          ([⟨['p', 'o', 'l', 'y', ':', 'b', 'e', 'l', 'l', 'u', 'c', 'c', 'i'],
             ['q', 'a'], mkRat 1 5, none,
             ['a', 't', 'p', '-', 'b', 'e', 'l', 'l', 'u', 'c', 'c', '-',
              'f', 'o', 'k', 'i', 'n', 'a', '-', '2', '0', '2', '6', '-',
              '0', '2', '-', '2', '5']⟩,
            ⟨['k', 'a', 'l', 's', 'h', 'i', ':', 'b', 'e', 'l', 'd', 'a', 'v'],
             ['q', 'b'], mkRat 161 200, none, []⟩] :
            List MarketD).find? (fun m => m.id == i))
        maxConfirmationsPerCycle
        [⟨['p', 'o', 'l', 'y', ':', 'b', 'e', 'l', 'l', 'u', 'c', 'c', 'i'],
          ['k', 'a', 'l', 's', 'h', 'i', ':', 'b', 'e', 'l', 'd', 'a', 'v'],
          mkRat 4 5⟩]
        ⟨[], [], 0, []⟩).rejectedKeys = []) ∧
    check_sports_orientation
      ['k', 'a', 'l', 's', 'h', 'i', ':', 'b', 'e', 'l', 'd', 'a', 'v']
      ['b', 'e', 'l', 'l', 'u', 'c', 'c'] ['f', 'o', 'k', 'i', 'n', 'a'] =
      SportsOrient.unknown ∧
    |mkRat 1 5 - mkRat 161 200| = mkRat 121 200 ∧
    |mkRat 1 5 - (1 - mkRat 161 200)| = mkRat 1 200 ∧
    mkRat 1 5 < |mkRat 1 5 - mkRat 161 200| := by
  refine ⟨by decide, by decide, by decide, ?_, ?_, ?_⟩
  · rw [show (mkRat 1 5 : ℚ) = 1/5 by norm_num [mkRat, Rat.normalize],
      show (mkRat 161 200 : ℚ) = 161/200 by norm_num [mkRat, Rat.normalize],
      show (mkRat 121 200 : ℚ) = 121/200 by norm_num [mkRat, Rat.normalize]]
    rw [abs_of_nonpos (by norm_num)]
    norm_num
  · rw [show (mkRat 1 5 : ℚ) = 1/5 by norm_num [mkRat, Rat.normalize],
      show (mkRat 161 200 : ℚ) = 161/200 by norm_num [mkRat, Rat.normalize],
      show (mkRat 1 200 : ℚ) = 1/200 by norm_num [mkRat, Rat.normalize]]
    rw [abs_of_nonneg (by norm_num)]
    norm_num
  · rw [show (mkRat 1 5 : ℚ) = 1/5 by norm_num [mkRat, Rat.normalize],
      show (mkRat 161 200 : ℚ) = 161/200 by norm_num [mkRat, Rat.normalize]]
    rw [abs_of_nonpos (by norm_num)]
    norm_num

-- Helper lemmas for the streaming-throttle claim.

theorem lookup_map_set_same (ts : List (ℕ × ℚ)) (k : ℕ) (v : ℚ)
    (hs : (ts.lookup k).isSome = true) :
    List.lookup k (ts.map (fun p => if p.1 = k then (p.1, v) else p)) = some v := by
  induction ts with
  | nil => simp [List.lookup] at hs
  | cons p rest ih =>
    rcases p with ⟨a, b⟩
    simp only [List.map_cons]
    by_cases h : a = k
    · subst h
      rw [show (if (a, b).1 = a then ((a, b).1, v) else (a, b)) = (a, v) from if_pos rfl]
      simp [List.lookup]
    · have h2 : (k == a) = false := by
        simp only [beq_eq_false_iff_ne, ne_eq]
        exact fun hh => h hh.symm
      rw [show (if (a, b).1 = k then ((a, b).1, v) else (a, b)) = (a, b) from if_neg h]
      simp only [List.lookup, h2] at hs
      simp only [List.lookup, h2]
      exact ih hs

theorem lookup_map_set_ne (ts : List (ℕ × ℚ)) (k m : ℕ) (v : ℚ) (hne : m ≠ k) :
    List.lookup m (ts.map (fun p => if p.1 = k then (p.1, v) else p)) =
      List.lookup m ts := by
  induction ts with
  | nil => simp
  | cons p rest ih =>
    rcases p with ⟨a, b⟩
    simp only [List.map_cons]
    by_cases h : a = k
    · subst h
      have h2 : (m == a) = false := by
        simp only [beq_eq_false_iff_ne, ne_eq]
        exact hne
      rw [show (if (a, b).1 = a then ((a, b).1, v) else (a, b)) = (a, v) from if_pos rfl]
      simp only [List.lookup, h2]
      exact ih
    · rw [show (if (a, b).1 = k then ((a, b).1, v) else (a, b)) = (a, b) from if_neg h]
      by_cases hm : m = a
      · subst hm
        simp [List.lookup]
      · have h2 : (m == a) = false := by
          simp only [beq_eq_false_iff_ne, ne_eq]
          exact hm
        simp only [List.lookup, h2]
        exact ih

theorem lookup_append_single_same (ts : List (ℕ × ℚ)) (k : ℕ) (v : ℚ)
    (hs : (ts.lookup k).isSome = false) :
    List.lookup k (ts ++ [(k, v)]) = some v := by
  induction ts with
  | nil => simp [List.lookup]
  | cons p rest ih =>
    rcases p with ⟨a, b⟩
    by_cases h : k = a
    · subst h
      simp [List.lookup] at hs
    · have h2 : (k == a) = false := by
        simp only [beq_eq_false_iff_ne, ne_eq]
        exact h
      simp only [List.lookup, h2] at hs
      simp only [List.cons_append, List.lookup, h2]
      exact ih hs

theorem lookup_append_single_ne (ts : List (ℕ × ℚ)) (k m : ℕ) (v : ℚ) (hne : m ≠ k) :
    List.lookup m (ts ++ [(k, v)]) = List.lookup m ts := by
  have h2 : (m == k) = false := by
    simp only [beq_eq_false_iff_ne, ne_eq]
    exact hne
  induction ts with
  | nil => simp [List.lookup, h2]
  | cons p rest ih =>
    rcases p with ⟨a, b⟩
    by_cases hm : m = a
    · subst hm
      simp [List.lookup]
    · have h3 : (m == a) = false := by
        simp only [beq_eq_false_iff_ne, ne_eq]
        exact hm
      simp only [List.cons_append, List.lookup, h3]
      exact ih

theorem lastTsGet_set_same (ts : List (ℕ × ℚ)) (k : ℕ) (v : ℚ) :
    lastTsGet (lastTsSet ts k v) k = v := by
  unfold lastTsSet
  split_ifs with hs
  · simp [lastTsGet, lookup_map_set_same ts k v hs]
  · have hs2 : (ts.lookup k).isSome = false := by
      simp only [Bool.not_eq_true] at hs
      exact hs
    simp [lastTsGet, lookup_append_single_same ts k v hs2]

theorem lastTsGet_set_ne (ts : List (ℕ × ℚ)) (k m : ℕ) (v : ℚ) (hne : m ≠ k) :
    lastTsGet (lastTsSet ts k v) m = lastTsGet ts m := by
  unfold lastTsSet
  split_ifs with hs
  · simp [lastTsGet, lookup_map_set_ne ts k m v hne]
  · simp [lastTsGet, lookup_append_single_ne ts k m v hne]


theorem wsProcess_throttle (now : ℚ) (mk1 : List WsMarketRow) (mid : Str) (mId : ℕ)
    (rows : List WsMatchRow) (ts : List (ℕ × ℚ)) (hist : List WsHistRow) :
    (((wsProcessMatches now mk1 mid rows ts hist).2.2.filter
        (fun h => h.match_id == mId)).length ≤
      (hist.filter (fun h => h.match_id == mId)).length + 1) ∧
    ((lastTsGet (wsProcessMatches now mk1 mid rows ts hist).2.1 mId =
        lastTsGet ts mId ∧
        ((wsProcessMatches now mk1 mid rows ts hist).2.2.filter
          (fun h => h.match_id == mId)).length =
          (hist.filter (fun h => h.match_id == mId)).length) ∨
      lastTsGet (wsProcessMatches now mk1 mid rows ts hist).2.1 mId = now) ∧
    (now - lastTsGet ts mId < historyInterval →
      ((wsProcessMatches now mk1 mid rows ts hist).2.2.filter
        (fun h => h.match_id == mId)).length =
        (hist.filter (fun h => h.match_id == mId)).length ∧
      lastTsGet (wsProcessMatches now mk1 mid rows ts hist).2.1 mId =
        lastTsGet ts mId) := by
  induction rows generalizing ts hist with
  | nil =>
    exact ⟨by simp [wsProcessMatches], Or.inl ⟨rfl, rfl⟩, fun _ => ⟨rfl, rfl⟩⟩
  | cons m rest ih =>
    simp only [wsProcessMatches]
    split_ifs with haff hzero hthrottle
    · exact ih ts hist
    · -- throttle fires: one history row inserted for m.id
      by_cases hmid : m.id = mId
      · have hts1 : lastTsGet (lastTsSet ts m.id now) mId = now := by
          rw [hmid] at hthrottle ⊢
          exact lastTsGet_set_same ts mId now
        have hcount1 :
            ((hist ++ [wsHistRowOf mk1 m]).filter
              (fun h => h.match_id == mId)).length =
            (hist.filter (fun h => h.match_id == mId)).length + 1 := by
          simp [List.filter_append, wsHistRowOf, hmid]
        have hsmall : now - lastTsGet (lastTsSet ts m.id now) mId < historyInterval := by
          rw [hts1, sub_self]
          simp only [historyInterval]
          norm_num
        obtain ⟨_, _, h3⟩ := ih (lastTsSet ts m.id now) (hist ++ [wsHistRowOf mk1 m])
        obtain ⟨hc3, hl3⟩ := h3 hsmall
        refine ⟨?_, Or.inr ?_, fun hcontra => ?_⟩
        · simp only []
          rw [hc3, hcount1]
        · simp only []
          rw [hl3, hts1]
        · exfalso
          rw [hmid] at hthrottle
          exact absurd hcontra (not_lt.mpr hthrottle)
      · have hts1 : lastTsGet (lastTsSet ts m.id now) mId = lastTsGet ts mId :=
          lastTsGet_set_ne ts m.id mId now (fun h => hmid h.symm)
        have hcount1 :
            ((hist ++ [wsHistRowOf mk1 m]).filter
              (fun h => h.match_id == mId)).length =
            (hist.filter (fun h => h.match_id == mId)).length := by
          simp [List.filter_append, wsHistRowOf, hmid]
        obtain ⟨h1, h2, h3⟩ := ih (lastTsSet ts m.id now) (hist ++ [wsHistRowOf mk1 m])
        rw [hcount1] at h1
        rw [hts1] at h2 h3
        rw [hcount1] at h2 h3
        exact ⟨h1, h2, h3⟩
    · exact ih ts hist
    · exact ih ts hist

theorem update_history_eq (st : WsState) (market_id : Str) (y n t : ℚ) :
    (update_market_and_matches st market_id y n t).history =
      (wsProcessMatches t
        (st.markets.map (fun r =>
          if r.id == market_id then { r with yes_price := y, no_price := n } else r))
        market_id st.matchRows st.lastHistoryTs st.history).2.2 := rfl

theorem update_lastTs_eq (st : WsState) (market_id : Str) (y n t : ℚ) :
    (update_market_and_matches st market_id y n t).lastHistoryTs =
      (wsProcessMatches t
        (st.markets.map (fun r =>
          if r.id == market_id then { r with yes_price := y, no_price := n } else r))
        market_id st.matchRows st.lastHistoryTs st.history).2.1 := rfl

theorem update_markets_eq (st : WsState) (market_id : Str) (y n t : ℚ) :
    (update_market_and_matches st market_id y n t).markets =
      st.markets.map (fun r =>
        if r.id == market_id then { r with yes_price := y, no_price := n } else r) := rfl

theorem update_matchRows_eq (st : WsState) (market_id : Str) (y n t : ℚ) :
    (update_market_and_matches st market_id y n t).matchRows =
      (wsProcessMatches t
        (st.markets.map (fun r =>
          if r.id == market_id then { r with yes_price := y, no_price := n } else r))
        market_id st.matchRows st.lastHistoryTs st.history).1 := rfl

theorem wsRun_throttle_aux (T : ℚ) (mId : ℕ) (c0 : ℕ) :
    ∀ (events : List WsEvent) (st : WsState),
      (∀ e ∈ events, T ≤ e.ts ∧ e.ts < T + historyInterval) →
      histCount st mId ≤ c0 + 1 →
      (c0 < histCount st mId → T ≤ lastTsGet st.lastHistoryTs mId) →
      histCount (wsRunEvents st events) mId ≤ c0 + 1 ∧
        (c0 < histCount (wsRunEvents st events) mId →
          T ≤ lastTsGet (wsRunEvents st events).lastHistoryTs mId) := by
  intro events
  induction events with
  | nil => intro st _ hle hlast; exact ⟨hle, hlast⟩
  | cons e rest ih =>
    intro st hwin hle hlast
    have hw := hwin e (List.mem_cons_self e rest)
    set st1 := update_market_and_matches st e.market_id e.yes_price e.no_price e.ts
      with hst1
    have hrun : wsRunEvents st (e :: rest) = wsRunEvents st1 rest := by
      simp [wsRunEvents, hst1]
    obtain ⟨h1, h2, h3⟩ := wsProcess_throttle e.ts
      (st.markets.map (fun r =>
        if r.id == e.market_id then
          { r with yes_price := e.yes_price, no_price := e.no_price } else r))
      e.market_id mId st.matchRows st.lastHistoryTs st.history
    have hcount1 : histCount st1 mId ≤ c0 + 1 := by
      rcases Nat.lt_or_ge c0 (histCount st mId) with hgt | hle2
      · -- already c0 + 1 rows: the throttle blocks any further insert
        have hT := hlast hgt
        have hts : e.ts - lastTsGet st.lastHistoryTs mId < historyInterval := by
          have := hw.2
          linarith
        obtain ⟨hc, _⟩ := h3 hts
        simp only [histCount, hst1, update_history_eq]
        rw [hc]
        exact hle
      · calc histCount st1 mId
            ≤ histCount st mId + 1 := by
              simp only [histCount, hst1, update_history_eq]
              exact h1
          _ ≤ c0 + 1 := by omega
    have hlast1 : c0 < histCount st1 mId → T ≤ lastTsGet st1.lastHistoryTs mId := by
      intro hgt1
      rcases h2 with ⟨hlst, hcnt⟩ | hlst
      · have hgt0 : c0 < histCount st mId := by
          simp only [histCount, hst1, update_history_eq] at hgt1
          rw [hcnt] at hgt1
          exact hgt1
        have := hlast hgt0
        simp only [hst1, update_lastTs_eq]
        rw [hlst]
        exact this
      · simp only [hst1, update_lastTs_eq]
        rw [hlst]
        exact hw.1
    rw [hrun]
    exact ih st1 (fun x hx => hwin x (List.mem_cons_of_mem e hx)) hcount1 hlast1

theorem wsProcess_fst_updated (now : ℚ) (mk1 : List WsMarketRow) (mid : Str)
    (rows : List WsMatchRow) (ts : List (ℕ × ℚ)) (hist : List WsHistRow) :
    ∀ m ∈ (wsProcessMatches now mk1 mid rows ts hist).1,
      (m.polymarket_id = mid ∨ m.kalshi_id = mid) →
      joinedYes mk1 m.polymarket_id ≠ 0 →
      joinedYes mk1 m.kalshi_id ≠ 0 →
      m.spread = (calculate_spread (joinedYes mk1 m.polymarket_id)
        (joinedYes mk1 m.kalshi_id)).raw_spread ∧
      m.fee_adjusted_spread = (calculate_spread (joinedYes mk1 m.polymarket_id)
        (joinedYes mk1 m.kalshi_id)).fee_adjusted_spread ∧
      m.polymarket_yes = joinedYes mk1 m.polymarket_id ∧
      m.kalshi_yes = joinedYes mk1 m.kalshi_id := by
  induction rows generalizing ts hist with
  | nil =>
    intro m hm
    simp [wsProcessMatches] at hm
  | cons m0 rest ih =>
    intro m hm haff hp hk
    simp only [wsProcessMatches] at hm
    split_ifs at hm with haff0 hzero hthrottle
    · -- zero-price head row is left unchanged
      simp only [List.mem_cons] at hm
      rcases hm with heq | hm
      · subst heq
        rcases hzero with hz | hz
        · exact absurd hz hp
        · exact absurd hz hk
      · exact ih ts hist m hm haff hp hk
    · -- updated head row
      simp only [List.mem_cons] at hm
      rcases hm with heq | hm
      · subst heq
        simp [wsUpdatedRow]
      · exact ih (lastTsSet ts m0.id now) (hist ++ [wsHistRowOf mk1 m0]) m hm haff hp hk
    · simp only [List.mem_cons] at hm
      rcases hm with heq | hm
      · subst heq
        simp [wsUpdatedRow]
      · exact ih ts hist m hm haff hp hk
    · -- unaffected head row
      simp only [List.mem_cons] at hm
      rcases hm with heq | hm
      · subst heq
        exact absurd haff haff0
      · exact ih ts hist m hm haff hp hk

/-- C7: streaming price-update throttling. First conjunct: over any
sequence of price events whose receipt times all lie inside one throttle
window of length _HISTORY_INTERVAL, at most one price-history row is
appended per match id (in particular, ten events for one match within one
interval insert at most one row). Second conjunct: the owning market row's
live prices are overwritten on every event. Third conjunct: on every event,
every match row referencing the updated market whose joined prices are both
nonzero carries the freshly recomputed spread columns of calculate_spread. -/
theorem claim_C7_history_throttle_and_live_updates :
    (∀ (st0 : WsState) (events : List WsEvent) (T : ℚ) (mId : ℕ),
        (∀ e ∈ events, T ≤ e.ts ∧ e.ts < T + historyInterval) →
        histCount (wsRunEvents st0 events) mId ≤ histCount st0 mId + 1) ∧
    (∀ (st : WsState) (mid : Str) (y n t : ℚ) (r : WsMarketRow),
        r ∈ (update_market_and_matches st mid y n t).markets → r.id = mid →
        r.yes_price = y ∧ r.no_price = n) ∧
    (∀ (st : WsState) (mid : Str) (y n t : ℚ) (m : WsMatchRow),
        m ∈ (update_market_and_matches st mid y n t).matchRows →
        (m.polymarket_id = mid ∨ m.kalshi_id = mid) →
        joinedYes (update_market_and_matches st mid y n t).markets m.polymarket_id ≠ 0 →
        joinedYes (update_market_and_matches st mid y n t).markets m.kalshi_id ≠ 0 →
        m.spread = (calculate_spread
          (joinedYes (update_market_and_matches st mid y n t).markets m.polymarket_id)
          (joinedYes (update_market_and_matches st mid y n t).markets m.kalshi_id)).raw_spread ∧
        m.fee_adjusted_spread = (calculate_spread
          (joinedYes (update_market_and_matches st mid y n t).markets m.polymarket_id)
          (joinedYes (update_market_and_matches st mid y n t).markets m.kalshi_id)).fee_adjusted_spread ∧
        m.polymarket_yes =
          joinedYes (update_market_and_matches st mid y n t).markets m.polymarket_id ∧
        m.kalshi_yes =
          joinedYes (update_market_and_matches st mid y n t).markets m.kalshi_id) := by
  refine ⟨?_, ?_, ?_⟩
  · intro st0 events T mId hwin
    exact (wsRun_throttle_aux T mId (histCount st0 mId) events st0 hwin
      (Nat.le_succ _) (fun h => absurd h (lt_irrefl _))).1
  · intro st mid y n t r hr hid
    rw [update_markets_eq] at hr
    obtain ⟨r0, _, hfr⟩ := List.mem_map.mp hr
    by_cases h : r0.id == mid
    · rw [if_pos h] at hfr
      rw [← hfr]
      exact ⟨rfl, rfl⟩
    · rw [if_neg h] at hfr
      rw [← hfr] at hid
      exact absurd (by simpa using hid) (by simpa using h)
  · intro st mid y n t m hm haff hp hk
    rw [update_matchRows_eq] at hm
    rw [update_markets_eq] at hp hk ⊢
    exact wsProcess_fst_updated t _ mid st.matchRows st.lastHistoryTs st.history m hm haff hp hk

/-- Witness for C7 at concrete inputs: the ten in-window events for match 1
append at most one history row; the updated market row read back from the
state carries the event prices; and the recomputed match row carries the
calculate_spread columns of the freshly joined prices. -/
theorem claim_C7_witness :
    (histCount (wsRunEvents c7_state c7_events) 1 ≤ histCount c7_state 1 + 1) ∧
    ((⟨['p'], mkRat 2 5, mkRat 3 5⟩ : WsMarketRow).yes_price = mkRat 2 5 ∧
      (⟨['p'], mkRat 2 5, mkRat 3 5⟩ : WsMarketRow).no_price = mkRat 3 5) ∧
    ((wsUpdatedRow
        (update_market_and_matches c7_state ['p'] (mkRat 2 5) (mkRat 3 5) 1).markets
        ⟨1, ['p'], ['k'], 0, 0, 0, 0⟩).spread =
      (calculate_spread
        (joinedYes
          (update_market_and_matches c7_state ['p'] (mkRat 2 5) (mkRat 3 5) 1).markets
          ['p'])
        (joinedYes
          (update_market_and_matches c7_state ['p'] (mkRat 2 5) (mkRat 3 5) 1).markets
          ['k'])).raw_spread) := by
  refine ⟨?_, ?_, ?_⟩
  · exact claim_C7_history_throttle_and_live_updates.1 c7_state c7_events 0 1 (by
      intro e he
      fin_cases he <;> exact ⟨by norm_num, by norm_num [historyInterval]⟩)
  · exact claim_C7_history_throttle_and_live_updates.2.1 c7_state ['p'] (mkRat 2 5)
      (mkRat 3 5) 1 ⟨['p'], mkRat 2 5, mkRat 3 5⟩ (by rw [update_markets_eq]; decide) rfl
  · have hmem : wsUpdatedRow
        (update_market_and_matches c7_state ['p'] (mkRat 2 5) (mkRat 3 5) 1).markets
        ⟨1, ['p'], ['k'], 0, 0, 0, 0⟩ ∈
        (update_market_and_matches c7_state ['p'] (mkRat 2 5) (mkRat 3 5) 1).matchRows := by
      rw [update_matchRows_eq, update_markets_eq]
      simp only [c7_state]
      have hc1 : (⟨1, ['p'], ['k'], 0, 0, 0, 0⟩ : WsMatchRow).polymarket_id = ['p'] ∨
          (⟨1, ['p'], ['k'], 0, 0, 0, 0⟩ : WsMatchRow).kalshi_id = ['p'] := Or.inl rfl
      have hc3 : ¬ (historyInterval ≤
          (1 : ℚ) - lastTsGet [] (⟨1, ['p'], ['k'], 0, 0, 0, 0⟩ : WsMatchRow).id) := by
        norm_num [historyInterval, lastTsGet]
      simp only [wsProcessMatches, if_pos hc1, if_neg hc3, if_neg (by decide : ¬ (joinedYes
        ([(⟨['p'], mkRat 1 2, mkRat 1 2⟩ : WsMarketRow), ⟨['k'], mkRat 3 10, mkRat 7 10⟩].map
          (fun r => if r.id == ['p'] then
            { r with yes_price := mkRat 2 5, no_price := mkRat 3 5 } else r))
        (⟨1, ['p'], ['k'], 0, 0, 0, 0⟩ : WsMatchRow).polymarket_id = 0 ∨ joinedYes
        ([(⟨['p'], mkRat 1 2, mkRat 1 2⟩ : WsMarketRow), ⟨['k'], mkRat 3 10, mkRat 7 10⟩].map
          (fun r => if r.id == ['p'] then
            { r with yes_price := mkRat 2 5, no_price := mkRat 3 5 } else r))
        (⟨1, ['p'], ['k'], 0, 0, 0, 0⟩ : WsMatchRow).kalshi_id = 0))]
      simp [update_markets_eq, c7_state]
    exact (claim_C7_history_throttle_and_live_updates.2.2 c7_state ['p'] (mkRat 2 5)
      (mkRat 3 5) 1
      (wsUpdatedRow
        (update_market_and_matches c7_state ['p'] (mkRat 2 5) (mkRat 3 5) 1).markets
        ⟨1, ['p'], ['k'], 0, 0, 0, 0⟩)
      hmem (Or.inl rfl)
      (by rw [update_markets_eq]; decide) (by rw [update_markets_eq]; decide)).1

/-- C4 counterexample: deterministic sports matching is NOT invariant under
swapping the two team codes in the Polymarket slug. With the game stored on
Kalshi as OKCDET and its market YES side OKC, the slug nba-okc-det-2026-02-25
(team1 = okc, the Polymarket YES side) matches, but the swapped slug
nba-det-okc-2026-02-25 yields no match at all: the YES suffix OKC now matches
team2, the orientation verdict flips to inverted, and the only candidate id
is discarded. -/
theorem claim_C4_counterexample :
    ((match_sports_deterministic
        [⟨['p', '1'],
          ['n', 'b', 'a', '-', 'o', 'k', 'c', '-', 'd', 'e', 't', '-', '2', '0', '2', '6', '-', '0', '2', '-', '2', '5'],
          moneylineStr⟩]
        [⟨['k', 'a', 'l', 's', 'h', 'i', ':', 'K', 'X', 'N', 'B', 'A', 'G', 'A', 'M', 'E', '-', '2', '6', 'F', 'E', 'B', '2', '5', 'O', 'K', 'C', 'D', 'E', 'T', '-', 'O', 'K', 'C'],
          ['K', 'X', 'N', 'B', 'A', 'G', 'A', 'M', 'E', '-', '2', '6', 'F', 'E', 'B', '2', '5', 'O', 'K', 'C', 'D', 'E', 'T']⟩]).map
        (fun m => (m.poly_id, m.kalshi_id)) =
      [(['p', '1'],
        ['k', 'a', 'l', 's', 'h', 'i', ':', 'K', 'X', 'N', 'B', 'A', 'G', 'A', 'M', 'E', '-', '2', '6', 'F', 'E', 'B', '2', '5', 'O', 'K', 'C', 'D', 'E', 'T', '-', 'O', 'K', 'C'])]) ∧
    (match_sports_deterministic
        [⟨['p', '1'],
          ['n', 'b', 'a', '-', 'd', 'e', 't', '-', 'o', 'k', 'c', '-', '2', '0', '2', '6', '-', '0', '2', '-', '2', '5'],
          moneylineStr⟩]
        [⟨['k', 'a', 'l', 's', 'h', 'i', ':', 'K', 'X', 'N', 'B', 'A', 'G', 'A', 'M', 'E', '-', '2', '6', 'F', 'E', 'B', '2', '5', 'O', 'K', 'C', 'D', 'E', 'T', '-', 'O', 'K', 'C'],
          ['K', 'X', 'N', 'B', 'A', 'G', 'A', 'M', 'E', '-', '2', '6', 'F', 'E', 'B', '2', '5', 'O', 'K', 'C', 'D', 'E', 'T']⟩] =
      []) := by
  constructor
  · decide
  · decide

/-- dict.get on a single-entry kalshi_by_key, with the empty-ids truthiness
collapse of lookupIds. -/
theorem lookupIds_single (K : SportsKey) (ids : List Str) (k : SportsKey) :
    lookupIds [(K, ids)] k =
      if k = K then (if ids = [] then none else some ids) else none := by
  by_cases h : k = K
  · have hb : (k == K) = true := beq_iff_eq.mpr h
    simp [lookupIds, List.lookup, hb, h]
  · have hb : (k == K) = false := beq_eq_false_iff_ne.mpr h
    simp [lookupIds, List.lookup, hb, h]

/-- findKalshiIds over a one-game kalshi_by_key when the poly date string is
not ISO-parseable: the result is decided by the two exact-date keys. -/
theorem findKalshi_single_none (K : SportsKey) (ids : List Str) (hids : ids ≠ [])
    (l d t1 t2 : Str) (hfi : fromIso d = none) :
    findKalshiIds [(K, ids)] l d t1 t2 =
      if ((l, d, t1 ++ t2) : SportsKey) = K ∨ ((l, d, t2 ++ t1) : SportsKey) = K then
        some ids
      else none := by
  have hsome : (if ids = [] then (none : Option (List Str)) else some ids) = some ids :=
    if_neg hids
  unfold findKalshiIds
  simp only [lookupIds_single, hsome, hfi]
  by_cases hc1 : ((l, d, t1 ++ t2) : SportsKey) = K
  · simp [hc1]
  · by_cases hc2 : ((l, d, t2 ++ t1) : SportsKey) = K
    · simp [hc1, hc2]
    · simp [hc1, hc2]

/-- findKalshiIds over a one-game kalshi_by_key when the poly date string
parses: decided by the two exact-date keys first, then by the four
one-day-fallback keys. -/
theorem findKalshi_single_some (K : SportsKey) (ids : List Str) (hids : ids ≠ [])
    (l d t1 t2 : Str) (g : CalDate) (hfi : fromIso d = some g) :
    findKalshiIds [(K, ids)] l d t1 t2 =
      if ((l, d, t1 ++ t2) : SportsKey) = K ∨ ((l, d, t2 ++ t1) : SportsKey) = K then
        some ids
      else if ((l, isoFormat (predDate g), t1 ++ t2) : SportsKey) = K ∨
          ((l, isoFormat (predDate g), t2 ++ t1) : SportsKey) = K ∨
          ((l, isoFormat (succDate g), t1 ++ t2) : SportsKey) = K ∨
          ((l, isoFormat (succDate g), t2 ++ t1) : SportsKey) = K then
        some ids
      else none := by
  have hsome : (if ids = [] then (none : Option (List Str)) else some ids) = some ids :=
    if_neg hids
  unfold findKalshiIds
  simp only [lookupIds_single, hsome, hfi]
  by_cases hc1 : ((l, d, t1 ++ t2) : SportsKey) = K
  · simp [hc1]
  · by_cases hc2 : ((l, d, t2 ++ t1) : SportsKey) = K
    · simp [hc1, hc2]
    · by_cases hc3 : ((l, isoFormat (predDate g), t1 ++ t2) : SportsKey) = K
      · simp [hc1, hc2, hc3]
      · by_cases hc4 : ((l, isoFormat (predDate g), t2 ++ t1) : SportsKey) = K
        · simp [hc1, hc2, hc3, hc4]
        · by_cases hc5 : ((l, isoFormat (succDate g), t1 ++ t2) : SportsKey) = K
          · simp [hc1, hc2, hc3, hc4, hc5]
          · by_cases hc6 : ((l, isoFormat (succDate g), t2 ++ t1) : SportsKey) = K
            · simp [hc1, hc2, hc3, hc4, hc5, hc6]
            · simp [hc1, hc2, hc3, hc4, hc5, hc6]

/-- Congruence for a four-way disjunction split into two two-way halves. -/
theorem or4_congr {P1 P2 P3 P4 Q1 Q2 Q3 Q4 : Prop}
    (h12 : P1 ∨ P2 ↔ Q1 ∨ Q2) (h34 : P3 ∨ P4 ↔ Q3 ∨ Q4) :
    (P1 ∨ P2 ∨ P3 ∨ P4) ↔ (Q1 ∨ Q2 ∨ Q3 ∨ Q4) := by
  constructor
  · rintro (h | h | h | h)
    · rcases h12.mp (Or.inl h) with h2 | h2
      · exact Or.inl h2
      · exact Or.inr (Or.inl h2)
    · rcases h12.mp (Or.inr h) with h2 | h2
      · exact Or.inl h2
      · exact Or.inr (Or.inl h2)
    · rcases h34.mp (Or.inl h) with h2 | h2
      · exact Or.inr (Or.inr (Or.inl h2))
      · exact Or.inr (Or.inr (Or.inr h2))
    · rcases h34.mp (Or.inr h) with h2 | h2
      · exact Or.inr (Or.inr (Or.inl h2))
      · exact Or.inr (Or.inr (Or.inr h2))
  · rintro (h | h | h | h)
    · rcases h12.mpr (Or.inl h) with h2 | h2
      · exact Or.inl h2
      · exact Or.inr (Or.inl h2)
    · rcases h12.mpr (Or.inr h) with h2 | h2
      · exact Or.inl h2
      · exact Or.inr (Or.inl h2)
    · rcases h34.mpr (Or.inl h) with h2 | h2
      · exact Or.inr (Or.inr (Or.inl h2))
      · exact Or.inr (Or.inr (Or.inr h2))
    · rcases h34.mpr (Or.inr h) with h2 | h2
      · exact Or.inr (Or.inr (Or.inl h2))
      · exact Or.inr (Or.inr (Or.inr h2))

/-- The one-game lookup is invariant under swapping the stored teams
concatenation, provided the querying market's alias-resolved team pair is
either exactly the game's pair (in either order) or touches neither
concatenation of it — the no-concatenation-ambiguity condition. -/
theorem findKalshi_swap_eq (L D a b t1 t2 league ds : Str) (ids : List Str)
    (hids : ids ≠ [])
    (hor : (t1 = a ∧ t2 = b) ∨ (t1 = b ∧ t2 = a) ∨
      (t1 ++ t2 ≠ a ++ b ∧ t1 ++ t2 ≠ b ++ a ∧
        t2 ++ t1 ≠ a ++ b ∧ t2 ++ t1 ≠ b ++ a)) :
    findKalshiIds [(((L, D, a ++ b) : SportsKey), ids)] league ds t1 t2 =
      findKalshiIds [(((L, D, b ++ a) : SportsKey), ids)] league ds t1 t2 := by
  have hP : ∀ dd : Str,
      (((league, dd, t1 ++ t2) : SportsKey) = (L, D, a ++ b) ∨
        ((league, dd, t2 ++ t1) : SportsKey) = (L, D, a ++ b)) ↔
      (((league, dd, t1 ++ t2) : SportsKey) = (L, D, b ++ a) ∨
        ((league, dd, t2 ++ t1) : SportsKey) = (L, D, b ++ a)) := by
    intro dd
    rcases hor with ⟨rfl, rfl⟩ | ⟨rfl, rfl⟩ | ⟨hq1, hq2, hq3, hq4⟩
    · simp only [Prod.mk.injEq]
      constructor <;> rintro (⟨hl, hd, hv⟩ | ⟨hl, hd, hv⟩) <;>
        first
          | exact Or.inl ⟨hl, hd, rfl⟩
          | exact Or.inr ⟨hl, hd, rfl⟩
          | exact Or.inl ⟨hl, hd, hv.symm⟩
          | exact Or.inr ⟨hl, hd, hv.symm⟩
          | exact Or.inl ⟨hl, hd, hv⟩
          | exact Or.inr ⟨hl, hd, hv⟩
    · simp only [Prod.mk.injEq]
      constructor <;> rintro (⟨hl, hd, hv⟩ | ⟨hl, hd, hv⟩) <;>
        first
          | exact Or.inl ⟨hl, hd, rfl⟩
          | exact Or.inr ⟨hl, hd, rfl⟩
          | exact Or.inl ⟨hl, hd, hv.symm⟩
          | exact Or.inr ⟨hl, hd, hv.symm⟩
          | exact Or.inl ⟨hl, hd, hv⟩
          | exact Or.inr ⟨hl, hd, hv⟩
    · simp only [Prod.mk.injEq]
      constructor
      · rintro (⟨h1a, h2a, hq⟩ | ⟨h1a, h2a, hq⟩)
        · exact absurd hq hq1
        · exact absurd hq hq3
      · rintro (⟨h1a, h2a, hq⟩ | ⟨h1a, h2a, hq⟩)
        · exact absurd hq hq2
        · exact absurd hq hq4
  rcases hfi : fromIso ds with _ | g
  · rw [findKalshi_single_none (L, D, a ++ b) ids hids league ds t1 t2 hfi,
      findKalshi_single_none (L, D, b ++ a) ids hids league ds t1 t2 hfi]
    by_cases hc : ((league, ds, t1 ++ t2) : SportsKey) = (L, D, a ++ b) ∨
        ((league, ds, t2 ++ t1) : SportsKey) = (L, D, a ++ b)
    · rw [if_pos hc, if_pos ((hP ds).mp hc)]
    · rw [if_neg hc, if_neg (fun hcc => hc ((hP ds).mpr hcc))]
  · rw [findKalshi_single_some (L, D, a ++ b) ids hids league ds t1 t2 g hfi,
      findKalshi_single_some (L, D, b ++ a) ids hids league ds t1 t2 g hfi]
    have hP4 :
        (((league, isoFormat (predDate g), t1 ++ t2) : SportsKey) = (L, D, a ++ b) ∨
          ((league, isoFormat (predDate g), t2 ++ t1) : SportsKey) = (L, D, a ++ b) ∨
          ((league, isoFormat (succDate g), t1 ++ t2) : SportsKey) = (L, D, a ++ b) ∨
          ((league, isoFormat (succDate g), t2 ++ t1) : SportsKey) = (L, D, a ++ b)) ↔
        (((league, isoFormat (predDate g), t1 ++ t2) : SportsKey) = (L, D, b ++ a) ∨
          ((league, isoFormat (predDate g), t2 ++ t1) : SportsKey) = (L, D, b ++ a) ∨
          ((league, isoFormat (succDate g), t1 ++ t2) : SportsKey) = (L, D, b ++ a) ∨
          ((league, isoFormat (succDate g), t2 ++ t1) : SportsKey) = (L, D, b ++ a)) := by
      exact or4_congr (hP (isoFormat (predDate g))) (hP (isoFormat (succDate g)))
    by_cases hc : ((league, ds, t1 ++ t2) : SportsKey) = (L, D, a ++ b) ∨
        ((league, ds, t2 ++ t1) : SportsKey) = (L, D, a ++ b)
    · rw [if_pos hc, if_pos ((hP ds).mp hc)]
    · rw [if_neg hc, if_neg (fun hcc => hc ((hP ds).mpr hcc))]
      by_cases hcg :
          ((league, isoFormat (predDate g), t1 ++ t2) : SportsKey) = (L, D, a ++ b) ∨
          ((league, isoFormat (predDate g), t2 ++ t1) : SportsKey) = (L, D, a ++ b) ∨
          ((league, isoFormat (succDate g), t1 ++ t2) : SportsKey) = (L, D, a ++ b) ∨
          ((league, isoFormat (succDate g), t2 ++ t1) : SportsKey) = (L, D, a ++ b)
      · rw [if_pos hcg, if_pos (hP4.mp hcg)]
      · rw [if_neg hcg, if_neg (fun hcc => hcg (hP4.mpr hcc))]

/-- Folding repeated setdefault-appends for one key accumulates the ids in
order. -/
theorem assocAppend_fold_same (key : SportsKey) (kids : List Str) (pre : List Str) :
    kids.foldl (fun acc kid => assocAppend acc key kid) [(key, pre)] =
      [(key, pre ++ kids)] := by
  induction kids generalizing pre with
  | nil => simp
  | cons k rest ih =>
    simp only [List.foldl_cons]
    have h1 : assocAppend [(key, pre)] key k = [(key, pre ++ [k])] := by
      simp [assocAppend, List.lookup]
    rw [h1, ih]
    simp

/-- kalshi_by_key built from any number of markets of one game — all sharing
one parseable event ticker, as Kalshi mirror YES markets do — is the single
entry holding all their ids in order. -/
theorem buildKalshi_same_game (k0 : Str) (rest : List Str) (e L teams D : Str)
    (h : parse_kalshi_event_ticker e = some (L, teams, D)) :
    buildKalshiByKey ((k0 :: rest).map (fun kid => ⟨kid, e⟩)) =
      [(((L, D, teams) : SportsKey), k0 :: rest)] := by
  have he : e ≠ [] := by
    intro hE
    rw [hE] at h
    simp [parse_kalshi_event_ticker] at h
  unfold buildKalshiByKey
  rw [List.foldl_map]
  simp only [he, h, ite_false]
  simp only [List.foldl_cons]
  rw [show assocAppend [] ((L, D, teams) : SportsKey) k0 = [((L, D, teams), [k0])] from by
    simp [assocAppend, List.lookup]]
  rw [assocAppend_fold_same]
  simp

/-- foldl congruence for pointwise-equal step functions. -/
theorem foldl_congr_fn {α β : Type} (f g : α → β → α) (l : List β)
    (h : ∀ a x, x ∈ l → f a x = g a x) : ∀ a, l.foldl f a = l.foldl g a := by
  induction l with
  | nil => intro a; rfl
  | cons x xs ih =>
    intro a
    simp only [List.foldl_cons]
    rw [h a x (List.mem_cons_self x xs)]
    exact ih (fun a2 y hy => h a2 y (List.mem_cons_of_mem x hy)) _

/-- The per-market loop body produces the same rows over two kalshi_by_key
tables that answer every lookup of this market identically. -/
theorem polyStep_congr (kbk1 kbk2 : List (SportsKey × List Str)) (p : SportsPolyIn)
    (h : ∀ league u1 u2 ds, parse_poly_slug p.event_slug = some (league, u1, u2, ds) →
      findKalshiIds kbk1 league ds (teamAlias (lowerStr u1)) (teamAlias (lowerStr u2)) =
        findKalshiIds kbk2 league ds (teamAlias (lowerStr u1)) (teamAlias (lowerStr u2)))
    (matched : List DetMatch) :
    polyStep kbk1 matched p = polyStep kbk2 matched p := by
  simp only [polyStep]
  by_cases htype : p.sports_market_type ≠ [] ∧ p.sports_market_type ≠ moneylineStr
  · rw [if_pos htype, if_pos htype]
  · rw [if_neg htype, if_neg htype]
    rcases hp : parse_poly_slug p.event_slug with _ | ⟨league, u1, u2, ds⟩
    · rfl
    · simp [h league u1 u2 ds hp]

/-- C4 amended: the order-independence that does hold is on the Kalshi side,
at full run scope. For every Polymarket market list and every list of Kalshi
market ids of one game — including the standard configuration of two mirror
YES markets sharing a single event ticker — replacing that ticker by one
encoding the same league, date and team pair in the opposite concatenation
order yields the same match rows: the key lookup tries both team orderings
and the orientation verdict reads only the market-id YES suffix, never the
ticker team order. The team-pair hypothesis rules out concatenation
ambiguity (an alias-resolved slug pair such as ok/cdet whose concatenation
equals okc ++ det), without which the swap can change the lookup outcome. -/
theorem claim_C4_kalshi_team_order_invariance
    (polys : List SportsPolyIn) (kids : List Str) (e1 e2 L a b D : Str)
    (h1 : parse_kalshi_event_ticker e1 = some (L, a ++ b, D))
    (h2 : parse_kalshi_event_ticker e2 = some (L, b ++ a, D))
    (hteams : ∀ p ∈ polys, ∀ league u1 u2 ds,
      parse_poly_slug p.event_slug = some (league, u1, u2, ds) →
      (teamAlias (lowerStr u1) ++ teamAlias (lowerStr u2) = a ++ b ∨
        teamAlias (lowerStr u1) ++ teamAlias (lowerStr u2) = b ++ a ∨
        teamAlias (lowerStr u2) ++ teamAlias (lowerStr u1) = a ++ b ∨
        teamAlias (lowerStr u2) ++ teamAlias (lowerStr u1) = b ++ a) →
      (teamAlias (lowerStr u1) = a ∧ teamAlias (lowerStr u2) = b) ∨
        (teamAlias (lowerStr u1) = b ∧ teamAlias (lowerStr u2) = a)) :
    match_sports_deterministic polys (kids.map (fun kid => ⟨kid, e1⟩)) =
      match_sports_deterministic polys (kids.map (fun kid => ⟨kid, e2⟩)) := by
  rcases kids with _ | ⟨k0, rest⟩
  · rfl
  · simp only [match_sports_deterministic]
    rw [buildKalshi_same_game k0 rest e1 L (a ++ b) D h1,
      buildKalshi_same_game k0 rest e2 L (b ++ a) D h2]
    refine foldl_congr_fn _ _ polys ?_ []
    intro acc p hp
    refine polyStep_congr _ _ p ?_ acc
    intro league u1 u2 ds hparse
    refine findKalshi_swap_eq L D a b _ _ league ds (k0 :: rest) (by simp) ?_
    by_cases htouch :
        teamAlias (lowerStr u1) ++ teamAlias (lowerStr u2) = a ++ b ∨
        teamAlias (lowerStr u1) ++ teamAlias (lowerStr u2) = b ++ a ∨
        teamAlias (lowerStr u2) ++ teamAlias (lowerStr u1) = a ++ b ∨
        teamAlias (lowerStr u2) ++ teamAlias (lowerStr u1) = b ++ a
    · rcases hteams p hp league u1 u2 ds hparse htouch with hcase | hcase
      · exact Or.inl hcase
      · exact Or.inr (Or.inl hcase)
    · push_neg at htouch
      exact Or.inr (Or.inr ⟨htouch.1, htouch.2.1, htouch.2.2.1, htouch.2.2.2⟩)

/-- Witness for C4 at concrete inputs: the OKC/DET game with Kalshi's
standard two mirror markets (YES OKC and YES DET) sharing one event ticker.
Swapping the ticker teams from OKCDET to DETOKC yields the same matches,
and the common result is the single OKC-aligned pair. -/
theorem claim_C4_witness :
    ((match_sports_deterministic
        [⟨['p', '1'], ['n', 'b', 'a', '-', 'o', 'k', 'c', '-', 'd', 'e', 't', '-', '2', '0', '2', '6', '-', '0', '2', '-', '2', '5'], moneylineStr⟩]
        [⟨['k', 'a', 'l', 's', 'h', 'i', ':', 'K', 'X', 'N', 'B', 'A', 'G', 'A', 'M', 'E', '-', '2', '6', 'F', 'E', 'B', '2', '5', 'O', 'K', 'C', 'D', 'E', 'T', '-', 'O', 'K', 'C'], ['K', 'X', 'N', 'B', 'A', 'G', 'A', 'M', 'E', '-', '2', '6', 'F', 'E', 'B', '2', '5', 'O', 'K', 'C', 'D', 'E', 'T']⟩,
         ⟨['k', 'a', 'l', 's', 'h', 'i', ':', 'K', 'X', 'N', 'B', 'A', 'G', 'A', 'M', 'E', '-', '2', '6', 'F', 'E', 'B', '2', '5', 'O', 'K', 'C', 'D', 'E', 'T', '-', 'D', 'E', 'T'], ['K', 'X', 'N', 'B', 'A', 'G', 'A', 'M', 'E', '-', '2', '6', 'F', 'E', 'B', '2', '5', 'O', 'K', 'C', 'D', 'E', 'T']⟩]).map (fun m => (m.poly_id, m.kalshi_id)) =
      [(['p', '1'], ['k', 'a', 'l', 's', 'h', 'i', ':', 'K', 'X', 'N', 'B', 'A', 'G', 'A', 'M', 'E', '-', '2', '6', 'F', 'E', 'B', '2', '5', 'O', 'K', 'C', 'D', 'E', 'T', '-', 'O', 'K', 'C'])]) ∧
    match_sports_deterministic
        [⟨['p', '1'], ['n', 'b', 'a', '-', 'o', 'k', 'c', '-', 'd', 'e', 't', '-', '2', '0', '2', '6', '-', '0', '2', '-', '2', '5'], moneylineStr⟩]
        [⟨['k', 'a', 'l', 's', 'h', 'i', ':', 'K', 'X', 'N', 'B', 'A', 'G', 'A', 'M', 'E', '-', '2', '6', 'F', 'E', 'B', '2', '5', 'O', 'K', 'C', 'D', 'E', 'T', '-', 'O', 'K', 'C'], ['K', 'X', 'N', 'B', 'A', 'G', 'A', 'M', 'E', '-', '2', '6', 'F', 'E', 'B', '2', '5', 'O', 'K', 'C', 'D', 'E', 'T']⟩,
         ⟨['k', 'a', 'l', 's', 'h', 'i', ':', 'K', 'X', 'N', 'B', 'A', 'G', 'A', 'M', 'E', '-', '2', '6', 'F', 'E', 'B', '2', '5', 'O', 'K', 'C', 'D', 'E', 'T', '-', 'D', 'E', 'T'], ['K', 'X', 'N', 'B', 'A', 'G', 'A', 'M', 'E', '-', '2', '6', 'F', 'E', 'B', '2', '5', 'O', 'K', 'C', 'D', 'E', 'T']⟩] =
      match_sports_deterministic
        [⟨['p', '1'], ['n', 'b', 'a', '-', 'o', 'k', 'c', '-', 'd', 'e', 't', '-', '2', '0', '2', '6', '-', '0', '2', '-', '2', '5'], moneylineStr⟩]
        [⟨['k', 'a', 'l', 's', 'h', 'i', ':', 'K', 'X', 'N', 'B', 'A', 'G', 'A', 'M', 'E', '-', '2', '6', 'F', 'E', 'B', '2', '5', 'O', 'K', 'C', 'D', 'E', 'T', '-', 'O', 'K', 'C'], ['K', 'X', 'N', 'B', 'A', 'G', 'A', 'M', 'E', '-', '2', '6', 'F', 'E', 'B', '2', '5', 'D', 'E', 'T', 'O', 'K', 'C']⟩,
         ⟨['k', 'a', 'l', 's', 'h', 'i', ':', 'K', 'X', 'N', 'B', 'A', 'G', 'A', 'M', 'E', '-', '2', '6', 'F', 'E', 'B', '2', '5', 'O', 'K', 'C', 'D', 'E', 'T', '-', 'D', 'E', 'T'], ['K', 'X', 'N', 'B', 'A', 'G', 'A', 'M', 'E', '-', '2', '6', 'F', 'E', 'B', '2', '5', 'D', 'E', 'T', 'O', 'K', 'C']⟩] :=
  ⟨by decide,
   claim_C4_kalshi_team_order_invariance
     [⟨['p', '1'], ['n', 'b', 'a', '-', 'o', 'k', 'c', '-', 'd', 'e', 't', '-', '2', '0', '2', '6', '-', '0', '2', '-', '2', '5'], moneylineStr⟩]
     [['k', 'a', 'l', 's', 'h', 'i', ':', 'K', 'X', 'N', 'B', 'A', 'G', 'A', 'M', 'E', '-', '2', '6', 'F', 'E', 'B', '2', '5', 'O', 'K', 'C', 'D', 'E', 'T', '-', 'O', 'K', 'C'], ['k', 'a', 'l', 's', 'h', 'i', ':', 'K', 'X', 'N', 'B', 'A', 'G', 'A', 'M', 'E', '-', '2', '6', 'F', 'E', 'B', '2', '5', 'O', 'K', 'C', 'D', 'E', 'T', '-', 'D', 'E', 'T']]
     ['K', 'X', 'N', 'B', 'A', 'G', 'A', 'M', 'E', '-', '2', '6', 'F', 'E', 'B', '2', '5', 'O', 'K', 'C', 'D', 'E', 'T']
     ['K', 'X', 'N', 'B', 'A', 'G', 'A', 'M', 'E', '-', '2', '6', 'F', 'E', 'B', '2', '5', 'D', 'E', 'T', 'O', 'K', 'C']
     ['n', 'b', 'a'] ['o', 'k', 'c'] ['d', 'e', 't'] ['2', '0', '2', '6', '-', '0', '2', '-', '2', '5']
     (by decide) (by decide)
     (by
       intro p hp league u1 u2 ds hparse htouch
       simp only [List.mem_singleton] at hp
       subst hp
       rw [show parse_poly_slug
           (⟨['p', '1'], ['n', 'b', 'a', '-', 'o', 'k', 'c', '-', 'd', 'e', 't', '-', '2', '0', '2', '6', '-', '0', '2', '-', '2', '5'], moneylineStr⟩ : SportsPolyIn).event_slug =
           some (['n', 'b', 'a'], ['o', 'k', 'c'], ['d', 'e', 't'], ['2', '0', '2', '6', '-', '0', '2', '-', '2', '5']) from by decide]
         at hparse
       simp only [Option.some.injEq, Prod.mk.injEq] at hparse
       obtain ⟨rfl, rfl, rfl, rfl⟩ := hparse
       left
       exact ⟨by decide, by decide⟩)⟩

theorem splitOnC_ne_nil (sep : Char) (s : Str) : splitOnC sep s ≠ [] := by
  induction s with
  | nil => simp [splitOnC]
  | cons c rest ih =>
    simp only [splitOnC]
    rcases h : splitOnC sep rest with _ | ⟨h0, t0⟩
    · exact absurd h ih
    · by_cases hc : c == sep <;> simp [hc]

theorem splitOnC_no_sep (sep : Char) (s : Str) (h : ∀ c ∈ s, ¬ c = sep) :
    splitOnC sep s = [s] := by
  induction s with
  | nil => rfl
  | cons c rest ih =>
    have hrest : splitOnC sep rest = [rest] :=
      ih (fun x hx => h x (List.mem_cons_of_mem c hx))
    have hc : (c == sep) = false :=
      beq_eq_false_iff_ne.mpr (h c (List.mem_cons_self c rest))
    simp [splitOnC, hrest, hc]

theorem splitOnC_append_sep (sep : Char) (s t : Str) (h : ∀ c ∈ s, ¬ c = sep) :
    splitOnC sep (s ++ sep :: t) = s :: splitOnC sep t := by
  induction s with
  | nil =>
    simp only [List.nil_append, splitOnC]
    rcases ht : splitOnC sep t with _ | ⟨h0, t0⟩
    · exact absurd ht (splitOnC_ne_nil sep t)
    · simp
  | cons c rest ih =>
    have hrest := ih (fun x hx => h x (List.mem_cons_of_mem c hx))
    have hc : (c == sep) = false :=
      beq_eq_false_iff_ne.mpr (h c (List.mem_cons_self c rest))
    simp only [List.cons_append, splitOnC, List.append_eq]
    rw [hrest]
    simp [hc]

theorem digitChar10_isDigit (n : ℕ) : isDigitC (digitChar10 n) = true := by
  rcases n with _ | _ | _ | _ | _ | _ | _ | _ | _ | n <;> rfl

theorem digitChar10_ne_dash (n : ℕ) : ¬ digitChar10 n = '-' := by
  rcases n with _ | _ | _ | _ | _ | _ | _ | _ | _ | n <;> simp [digitChar10]

theorem digitVal_digitChar10 (n : ℕ) (h : n < 10) : digitVal (digitChar10 n) = n := by
  interval_cases n <;> rfl

theorem natOfDigits_pad4 (n : ℕ) (h : n < 10000) : natOfDigits (pad4 n) = n := by
  have h1 : n / 1000 % 10 < 10 := Nat.mod_lt _ (by norm_num)
  have h2 : n / 100 % 10 < 10 := Nat.mod_lt _ (by norm_num)
  have h3 : n / 10 % 10 < 10 := Nat.mod_lt _ (by norm_num)
  have h4 : n % 10 < 10 := Nat.mod_lt _ (by norm_num)
  simp only [natOfDigits, pad4, List.foldl, digitVal_digitChar10 _ h1,
    digitVal_digitChar10 _ h2, digitVal_digitChar10 _ h3, digitVal_digitChar10 _ h4]
  omega

theorem natOfDigits_pad2 (n : ℕ) (h : n < 100) : natOfDigits (pad2 n) = n := by
  have h1 : n / 10 % 10 < 10 := Nat.mod_lt _ (by norm_num)
  have h2 : n % 10 < 10 := Nat.mod_lt _ (by norm_num)
  simp only [natOfDigits, pad2, List.foldl, digitVal_digitChar10 _ h1,
    digitVal_digitChar10 _ h2]
  omega

theorem daysInMonth_ge (y m : ℕ) : 28 ≤ daysInMonth y m := by
  unfold daysInMonth
  split_ifs <;> omega

theorem daysInMonth_le (y m : ℕ) : daysInMonth y m ≤ 31 := by
  unfold daysInMonth
  split_ifs <;> omega

theorem fromIso_isoFormat (d : CalDate) (h : ValidDate d) :
    fromIso (isoFormat d) = some d := by
  obtain ⟨hy1, hy2, hm1, hm2, hd1, hd2⟩ := h
  have hdim := daysInMonth_le d.year d.month
  have hdig4 : ∀ c ∈ pad4 d.year, ¬ c = '-' := by
    intro c hc
    simp only [pad4, List.mem_cons, List.not_mem_nil, or_false] at hc
    rcases hc with rfl | rfl | rfl | rfl <;> exact digitChar10_ne_dash _
  have hdig2m : ∀ c ∈ pad2 d.month, ¬ c = '-' := by
    intro c hc
    simp only [pad2, List.mem_cons, List.not_mem_nil, or_false] at hc
    rcases hc with rfl | rfl <;> exact digitChar10_ne_dash _
  have hsplit : splitOnC '-' (isoFormat d) = [pad4 d.year, pad2 d.month, pad2 d.day] := by
    rw [isoFormat]
    simp only [List.append_assoc, List.cons_append]
    rw [splitOnC_append_sep '-' _ _ hdig4, splitOnC_append_sep '-' _ _ hdig2m,
      splitOnC_no_sep '-' (pad2 d.day) (by
        intro c hc
        simp only [pad2, List.mem_cons, List.not_mem_nil, or_false] at hc
        rcases hc with rfl | rfl <;> exact digitChar10_ne_dash _)]
  rw [fromIso, hsplit]
  have hall4 : (pad4 d.year).all isDigitC = true := by
    simp [pad4, List.all_cons, digitChar10_isDigit]
  have hall2m : (pad2 d.month).all isDigitC = true := by
    simp [pad2, List.all_cons, digitChar10_isDigit]
  have hall2d : (pad2 d.day).all isDigitC = true := by
    simp [pad2, List.all_cons, digitChar10_isDigit]
  have hny : natOfDigits (pad4 d.year) = d.year := natOfDigits_pad4 _ (by omega)
  have hnm : natOfDigits (pad2 d.month) = d.month := natOfDigits_pad2 _ (by omega)
  have hnd : natOfDigits (pad2 d.day) = d.day := natOfDigits_pad2 _ (by omega)
  simp only [hall4, hall2m, hall2d, hny, hnm, hnd]
  rw [if_pos (show ((pad4 d.year).length = 4 ∧ True ∧ (pad2 d.month).length = 2 ∧ True ∧
    (pad2 d.day).length = 2 ∧ True) from ⟨rfl, trivial, rfl, trivial, rfl, trivial⟩)]
  rw [if_pos (show ValidDate ⟨d.year, d.month, d.day⟩ from ⟨hy1, hy2, hm1, hm2, hd1, hd2⟩)]

theorem isoFormat_inj (d1 d2 : CalDate) (h1 : ValidDate d1) (h2 : ValidDate d2)
    (h : isoFormat d1 = isoFormat d2) : d1 = d2 := by
  have r1 := fromIso_isoFormat d1 h1
  have r2 := fromIso_isoFormat d2 h2
  rw [h, r2] at r1
  exact (Option.some.injEq _ _ ▸ r1).symm

theorem validDate_succ (d : CalDate) (h : ValidDate d) (hy : d.year ≤ 9998) :
    ValidDate (succDate d) := by
  obtain ⟨hy1, hy2, hm1, hm2, hd1, hd2⟩ := h
  have h28 := daysInMonth_ge d.year (d.month + 1)
  have h31 : daysInMonth (d.year + 1) 1 = 31 := by norm_num [daysInMonth]
  unfold succDate
  split_ifs with h1 h2
  · exact ⟨hy1, hy2,
      hm1, hm2,
      by show 1 ≤ d.day + 1; omega,
      by show d.day + 1 ≤ daysInMonth d.year d.month; omega⟩
  · exact ⟨hy1, hy2,
      by show 1 ≤ d.month + 1; omega,
      by show d.month + 1 ≤ 12; omega,
      le_refl 1,
      by show 1 ≤ daysInMonth d.year (d.month + 1); omega⟩
  · exact ⟨by show 1 ≤ d.year + 1; omega,
      by show d.year + 1 ≤ 9999; omega,
      le_refl 1,
      by norm_num,
      le_refl 1,
      by show 1 ≤ daysInMonth (d.year + 1) 1; omega⟩

theorem validDate_pred (d : CalDate) (h : ValidDate d) (hy : 2 ≤ d.year) :
    ValidDate (predDate d) := by
  obtain ⟨hy1, hy2, hm1, hm2, hd1, hd2⟩ := h
  have h28 := daysInMonth_ge d.year (d.month - 1)
  have h28a := daysInMonth_ge d.year d.month
  have h31 : daysInMonth (d.year - 1) 12 = 31 := by norm_num [daysInMonth]
  unfold predDate
  split_ifs with h1 h2
  · exact ⟨hy1, hy2, hm1, hm2,
      by show 1 ≤ d.day - 1; omega,
      by show d.day - 1 ≤ daysInMonth d.year d.month; omega⟩
  · exact ⟨hy1, hy2,
      by show 1 ≤ d.month - 1; omega,
      by show d.month - 1 ≤ 12; omega,
      by show 1 ≤ daysInMonth d.year (d.month - 1); omega,
      le_refl _⟩
  · exact ⟨by show 1 ≤ d.year - 1; omega,
      by show d.year - 1 ≤ 9999; omega,
      by norm_num,
      by norm_num,
      by show (1:ℕ) ≤ 31; norm_num,
      by show (31:ℕ) ≤ daysInMonth (d.year - 1) 12; omega⟩

theorem succDate_ne (d : CalDate) : succDate d ≠ d := by
  rcases d with ⟨y, m, dd⟩
  unfold succDate
  dsimp only
  split_ifs <;> simp only [ne_eq, CalDate.mk.injEq] <;> omega

theorem predDate_ne (d : CalDate) (h : ValidDate d) : predDate d ≠ d := by
  rcases d with ⟨y, m, dd⟩
  obtain ⟨hy1, hy2, hm1, hm2, hd1, hd2⟩ := h
  unfold predDate
  dsimp only
  split_ifs <;> simp only [ne_eq, CalDate.mk.injEq] <;> omega

theorem predDate_ne_succDate (d : CalDate) (h : ValidDate d) :
    predDate d ≠ succDate d := by
  rcases d with ⟨y, m, dd⟩
  obtain ⟨hy1, hy2, hm1, hm2, hd1, hd2⟩ := h
  have h28 := daysInMonth_ge y m
  have h31 := daysInMonth_le y m
  unfold predDate succDate
  dsimp only
  split_ifs <;> simp only [ne_eq, CalDate.mk.injEq] <;> omega

theorem selectBestKalshi_single (u1 u2 kid : Str)
    (h : check_sports_orientation kid u1 u2 ≠ SportsOrient.inverted) :
    selectBestKalshi u1 u2 [kid] none = some kid := by
  rcases hc : check_sports_orientation kid u1 u2 with _ | _ | _ <;>
    simp [selectBestKalshi, hc] at h ⊢

theorem sportsKey_beq_false (L1 L2 d1 d2 t1 t2 : Str) (h : d1 ≠ d2) :
    (((L1, d1, t1) : SportsKey) == (L2, d2, t2)) = false := by
  rw [beq_eq_false_iff_ne]
  intro hEq
  exact h (congrArg (fun k => k.2.1) hEq)

theorem msd_single (p : SportsPolyIn) (ks : List SportsKalshiIn) :
    match_sports_deterministic [p] ks = polyStep (buildKalshiByKey ks) [] p := rfl

theorem buildKalshi_single (kid e league teams ds : Str)
    (h : parse_kalshi_event_ticker e = some (league, teams, ds)) :
    buildKalshiByKey [⟨kid, e⟩] = [((league, ds, teams), [kid])] := by
  have hne : e ≠ [] := by
    intro hE
    rw [hE] at h
    simp [parse_kalshi_event_ticker] at h
  simp [buildKalshiByKey, hne, h, assocAppend]

theorem buildKalshi_pair (kid1 e1 kid2 e2 L1 L2 teams1 teams2 ds1 ds2 : Str)
    (h1 : parse_kalshi_event_ticker e1 = some (L1, teams1, ds1))
    (h2 : parse_kalshi_event_ticker e2 = some (L2, teams2, ds2))
    (hkey : (((L2, ds2, teams2) : SportsKey) == (L1, ds1, teams1)) = false) :
    buildKalshiByKey [⟨kid1, e1⟩, ⟨kid2, e2⟩] =
      [((L1, ds1, teams1), [kid1]), ((L2, ds2, teams2), [kid2])] := by
  have hne1 : e1 ≠ [] := by
    intro hE
    rw [hE] at h1
    simp [parse_kalshi_event_ticker] at h1
  have hne2 : e2 ≠ [] := by
    intro hE
    rw [hE] at h2
    simp [parse_kalshi_event_ticker] at h2
  simp [buildKalshiByKey, hne1, hne2, h1, h2, assocAppend, List.lookup, hkey]

theorem polyStep_found (kbk : List (SportsKey × List Str)) (p : SportsPolyIn)
    (league u1 u2 ds kid : Str)
    (htype : p.sports_market_type = [] ∨ p.sports_market_type = moneylineStr)
    (hp : parse_poly_slug p.event_slug = some (league, u1, u2, ds))
    (hfind : findKalshiIds kbk league ds (teamAlias (lowerStr u1))
      (teamAlias (lowerStr u2)) = some [kid])
    (horient : check_sports_orientation kid u1 u2 ≠ SportsOrient.inverted) :
    polyStep kbk [] p =
      [⟨p.id, kid, 1, detReasonStr ++ canonical_sports_key league u1 u2 ds⟩] := by
  simp only [polyStep]
  rw [if_neg (fun hand => htype.elim hand.1 hand.2), hp]
  simp [hfind, selectBestKalshi_single u1 u2 kid horient]

theorem polyStep_nofind (kbk : List (SportsKey × List Str)) (p : SportsPolyIn)
    (league u1 u2 ds : Str)
    (htype : p.sports_market_type = [] ∨ p.sports_market_type = moneylineStr)
    (hp : parse_poly_slug p.event_slug = some (league, u1, u2, ds))
    (hfind : findKalshiIds kbk league ds (teamAlias (lowerStr u1))
      (teamAlias (lowerStr u2)) = none) :
    polyStep kbk [] p = [] := by
  simp only [polyStep]
  rw [if_neg (fun hand => htype.elim hand.1 hand.2), hp]
  simp [hfind]

theorem findKalshi_exact_first (L ds t1 t2 kid1 : Str)
    (rest : List (SportsKey × List Str)) :
    findKalshiIds (((L, ds, t1 ++ t2), [kid1]) :: rest) L ds t1 t2 = some [kid1] := by
  simp [findKalshiIds, lookupIds, List.lookup]

theorem findKalshi_offday (L t1 t2 kid : Str) (d d2 : CalDate)
    (hvd : ValidDate d) (hylo : 2 ≤ d.year) (hyhi : d.year ≤ 9998)
    (hd2 : d2 = predDate d ∨ d2 = succDate d) :
    findKalshiIds [((L, isoFormat d2, t1 ++ t2), [kid])] L (isoFormat d) t1 t2 =
      some [kid] := by
  have hvp : ValidDate (predDate d) := validDate_pred d hvd hylo
  have hvs : ValidDate (succDate d) := validDate_succ d hvd hyhi
  have hvd2 : ValidDate d2 := by
    rcases hd2 with rfl | rfl
    exacts [hvp, hvs]
  have hdne : isoFormat d ≠ isoFormat d2 := by
    intro hEq
    have hdd := isoFormat_inj d d2 hvd hvd2 hEq
    rcases hd2 with rfl | rfl
    · exact predDate_ne d hvd hdd.symm
    · exact succDate_ne d hdd.symm
  have hb1 := sportsKey_beq_false L L (isoFormat d) (isoFormat d2) (t1 ++ t2) (t1 ++ t2) hdne
  have hb2 := sportsKey_beq_false L L (isoFormat d) (isoFormat d2) (t2 ++ t1) (t1 ++ t2) hdne
  have hfrom := fromIso_isoFormat d hvd
  rcases hd2 with rfl | rfl
  · simp [findKalshiIds, lookupIds, List.lookup, hb1, hb2, hfrom]
  · have hps : isoFormat (predDate d) ≠ isoFormat (succDate d) := by
      intro hEq
      exact predDate_ne_succDate d hvd (isoFormat_inj _ _ hvp hvs hEq)
    have hb3 := sportsKey_beq_false L L (isoFormat (predDate d)) (isoFormat (succDate d))
      (t1 ++ t2) (t1 ++ t2) hps
    have hb4 := sportsKey_beq_false L L (isoFormat (predDate d)) (isoFormat (succDate d))
      (t2 ++ t1) (t1 ++ t2) hps
    simp [findKalshiIds, lookupIds, List.lookup, hb1, hb2, hb3, hb4, hfrom]

theorem findKalshi_faraway (L t1 t2 teams kid : Str) (d d2 : CalDate)
    (hvd : ValidDate d) (hvd2 : ValidDate d2) (hylo : 2 ≤ d.year) (hyhi : d.year ≤ 9998)
    (hne : d2 ≠ d) (hnp : d2 ≠ predDate d) (hns : d2 ≠ succDate d) :
    findKalshiIds [((L, isoFormat d2, teams), [kid])] L (isoFormat d) t1 t2 = none := by
  have hvp : ValidDate (predDate d) := validDate_pred d hvd hylo
  have hvs : ValidDate (succDate d) := validDate_succ d hvd hyhi
  have h1 : isoFormat d ≠ isoFormat d2 :=
    fun hEq => hne (isoFormat_inj d d2 hvd hvd2 hEq).symm
  have h2 : isoFormat (predDate d) ≠ isoFormat d2 :=
    fun hEq => hnp (isoFormat_inj _ _ hvp hvd2 hEq).symm
  have h3 : isoFormat (succDate d) ≠ isoFormat d2 :=
    fun hEq => hns (isoFormat_inj _ _ hvs hvd2 hEq).symm
  have hb1 := sportsKey_beq_false L L (isoFormat d) (isoFormat d2) (t1 ++ t2) teams h1
  have hb2 := sportsKey_beq_false L L (isoFormat d) (isoFormat d2) (t2 ++ t1) teams h1
  have hb3 := sportsKey_beq_false L L (isoFormat (predDate d)) (isoFormat d2) (t1 ++ t2) teams h2
  have hb4 := sportsKey_beq_false L L (isoFormat (predDate d)) (isoFormat d2) (t2 ++ t1) teams h2
  have hb5 := sportsKey_beq_false L L (isoFormat (succDate d)) (isoFormat d2) (t1 ++ t2) teams h3
  have hb6 := sportsKey_beq_false L L (isoFormat (succDate d)) (isoFormat d2) (t2 ++ t1) teams h3
  have hfrom := fromIso_isoFormat d hvd
  simp [findKalshiIds, lookupIds, List.lookup, hb1, hb2, hb3, hb4, hb5, hb6, hfrom]

/-- C6: for markets agreeing on league and (alias-resolved) team codes, the
deterministic matcher: (1) matches when the parsed dates are equal; (2)
matches via the fallback when the only Kalshi counterpart's date is exactly
one day before or after the Polymarket date; (3) produces no match when the
Kalshi date is any valid date other than the Polymarket date and its two
one-day neighbours (in particular two or more days away); and (4) prefers
the exact-date counterpart when both an exact-date and a one-day-offset
counterpart exist. -/
theorem claim_C6_date_equality_and_one_day_fallback :
    (∀ (p : SportsPolyIn) (kid e league u1 u2 ds : Str),
        (p.sports_market_type = [] ∨ p.sports_market_type = moneylineStr) →
        parse_poly_slug p.event_slug = some (league, u1, u2, ds) →
        parse_kalshi_event_ticker e =
          some (league, teamAlias (lowerStr u1) ++ teamAlias (lowerStr u2), ds) →
        check_sports_orientation kid u1 u2 ≠ SportsOrient.inverted →
        match_sports_deterministic [p] [⟨kid, e⟩] =
          [⟨p.id, kid, 1, detReasonStr ++ canonical_sports_key league u1 u2 ds⟩]) ∧
    (∀ (p : SportsPolyIn) (kid e league u1 u2 : Str) (d d2 : CalDate),
        ValidDate d → 2 ≤ d.year → d.year ≤ 9998 →
        (d2 = predDate d ∨ d2 = succDate d) →
        (p.sports_market_type = [] ∨ p.sports_market_type = moneylineStr) →
        parse_poly_slug p.event_slug = some (league, u1, u2, isoFormat d) →
        parse_kalshi_event_ticker e =
          some (league, teamAlias (lowerStr u1) ++ teamAlias (lowerStr u2),
            isoFormat d2) →
        check_sports_orientation kid u1 u2 ≠ SportsOrient.inverted →
        match_sports_deterministic [p] [⟨kid, e⟩] =
          [⟨p.id, kid, 1,
            detReasonStr ++ canonical_sports_key league u1 u2 (isoFormat d)⟩]) ∧
    (∀ (p : SportsPolyIn) (kid e league u1 u2 teams : Str) (d d2 : CalDate),
        ValidDate d → 2 ≤ d.year → d.year ≤ 9998 → ValidDate d2 →
        d2 ≠ d → d2 ≠ predDate d → d2 ≠ succDate d →
        (p.sports_market_type = [] ∨ p.sports_market_type = moneylineStr) →
        parse_poly_slug p.event_slug = some (league, u1, u2, isoFormat d) →
        parse_kalshi_event_ticker e = some (league, teams, isoFormat d2) →
        match_sports_deterministic [p] [⟨kid, e⟩] = []) ∧
    (∀ (p : SportsPolyIn) (kid1 e1 kid2 e2 league u1 u2 : Str) (d d2 : CalDate),
        ValidDate d → 2 ≤ d.year → d.year ≤ 9998 →
        (d2 = predDate d ∨ d2 = succDate d) →
        (p.sports_market_type = [] ∨ p.sports_market_type = moneylineStr) →
        parse_poly_slug p.event_slug = some (league, u1, u2, isoFormat d) →
        parse_kalshi_event_ticker e1 =
          some (league, teamAlias (lowerStr u1) ++ teamAlias (lowerStr u2),
            isoFormat d) →
        parse_kalshi_event_ticker e2 =
          some (league, teamAlias (lowerStr u1) ++ teamAlias (lowerStr u2),
            isoFormat d2) →
        check_sports_orientation kid1 u1 u2 ≠ SportsOrient.inverted →
        match_sports_deterministic [p] [⟨kid1, e1⟩, ⟨kid2, e2⟩] =
          [⟨p.id, kid1, 1,
            detReasonStr ++ canonical_sports_key league u1 u2 (isoFormat d)⟩]) := by
  refine ⟨?_, ?_, ?_, ?_⟩
  · intro p kid e league u1 u2 ds htype hp hk horient
    rw [msd_single, buildKalshi_single kid e league _ ds hk]
    exact polyStep_found _ p league u1 u2 ds kid htype hp
      (findKalshi_exact_first league ds _ _ kid []) horient
  · intro p kid e league u1 u2 d d2 hvd hylo hyhi hd2 htype hp hk horient
    rw [msd_single, buildKalshi_single kid e league _ _ hk]
    exact polyStep_found _ p league u1 u2 (isoFormat d) kid htype hp
      (findKalshi_offday league _ _ kid d d2 hvd hylo hyhi hd2) horient
  · intro p kid e league u1 u2 teams d d2 hvd hylo hyhi hvd2 hne hnp hns htype hp hk
    rw [msd_single, buildKalshi_single kid e league teams _ hk]
    exact polyStep_nofind _ p league u1 u2 (isoFormat d) htype hp
      (findKalshi_faraway league _ _ teams kid d d2 hvd hvd2 hylo hyhi hne hnp hns)
  · intro p kid1 e1 kid2 e2 league u1 u2 d d2 hvd hylo hyhi hd2 htype hp h1 h2 horient
    have hvp : ValidDate (predDate d) := validDate_pred d hvd hylo
    have hvs : ValidDate (succDate d) := validDate_succ d hvd hyhi
    have hvd2 : ValidDate d2 := by
      rcases hd2 with rfl | rfl
      exacts [hvp, hvs]
    have hdne : isoFormat d2 ≠ isoFormat d := by
      intro hEq
      have hdd := isoFormat_inj d2 d hvd2 hvd hEq
      rcases hd2 with rfl | rfl
      · exact predDate_ne d hvd hdd
      · exact succDate_ne d hdd
    rw [msd_single, buildKalshi_pair kid1 e1 kid2 e2 league league _ _ _ _ h1 h2
      (sportsKey_beq_false league league _ _ _ _ hdne)]
    exact polyStep_found _ p league u1 u2 (isoFormat d) kid1 htype hp
      (findKalshi_exact_first league (isoFormat d) _ _ kid1 _) horient

/-- Witness for C6 at concrete inputs: against the 2026-02-25 OKC/DET slug,
a Kalshi listing dated Feb 25 matches, one dated Feb 24 matches via the
fallback, one dated Feb 20 does not match, and with both Feb 25 and Feb 26
listed the exact-date market is chosen. -/
theorem claim_C6_witness :
    (match_sports_deterministic [c6_poly] [⟨c6_kid, c6_exact⟩] =
      [⟨c6_poly.id, c6_kid, 1,
        detReasonStr ++ canonical_sports_key ['n', 'b', 'a'] ['o', 'k', 'c']
          ['d', 'e', 't'] (isoFormat ⟨2026, 2, 25⟩)⟩]) ∧
    (match_sports_deterministic [c6_poly] [⟨c6_kid, c6_oneday⟩] =
      [⟨c6_poly.id, c6_kid, 1,
        detReasonStr ++ canonical_sports_key ['n', 'b', 'a'] ['o', 'k', 'c']
          ['d', 'e', 't'] (isoFormat ⟨2026, 2, 25⟩)⟩]) ∧
    (match_sports_deterministic [c6_poly] [⟨c6_kid, c6_far⟩] = []) ∧
    (match_sports_deterministic [c6_poly] [⟨c6_kid, c6_exact⟩, ⟨['k', '2'], c6_next⟩] =
      [⟨c6_poly.id, c6_kid, 1,
        detReasonStr ++ canonical_sports_key ['n', 'b', 'a'] ['o', 'k', 'c']
          ['d', 'e', 't'] (isoFormat ⟨2026, 2, 25⟩)⟩]) :=
  ⟨claim_C6_date_equality_and_one_day_fallback.1 c6_poly c6_kid c6_exact
      ['n', 'b', 'a'] ['o', 'k', 'c'] ['d', 'e', 't'] (isoFormat ⟨2026, 2, 25⟩)
      (Or.inr rfl) (by decide) (by decide) (by decide),
   claim_C6_date_equality_and_one_day_fallback.2.1 c6_poly c6_kid c6_oneday
      ['n', 'b', 'a'] ['o', 'k', 'c'] ['d', 'e', 't'] ⟨2026, 2, 25⟩ ⟨2026, 2, 24⟩
      (by decide) (by decide) (by decide) (Or.inl (by decide))
      (Or.inr rfl) (by decide) (by decide) (by decide),
   claim_C6_date_equality_and_one_day_fallback.2.2.1 c6_poly c6_kid c6_far
      ['n', 'b', 'a'] ['o', 'k', 'c'] ['d', 'e', 't']
      ['o', 'k', 'c', 'd', 'e', 't'] ⟨2026, 2, 25⟩ ⟨2026, 2, 20⟩
      (by decide) (by decide) (by decide) (by decide)
      (by decide) (by decide) (by decide)
      (Or.inr rfl) (by decide) (by decide),
   claim_C6_date_equality_and_one_day_fallback.2.2.2 c6_poly c6_kid c6_exact
      ['k', '2'] c6_next
      ['n', 'b', 'a'] ['o', 'k', 'c'] ['d', 'e', 't'] ⟨2026, 2, 25⟩ ⟨2026, 2, 26⟩
      (by decide) (by decide) (by decide) (Or.inr (by decide))
      (Or.inr rfl) (by decide) (by decide) (by decide) (by decide)⟩
